import Mathlib

/-!
# YUView: split view widget (splitViewWidget.cpp) and file info box (FileInfoGroupBox.cpp)

A shallow embedding of the view state of `splitViewWidget` and of the operations that
change or read it: zooming, resetting, the mouse handlers and the paint routine; and of the
label list of `FileInfoGroupBox` with its three operations.

* `double` values are exact rationals (`ℚ`), `int` values are unbounded integers (`Int`).
* A conversion `double -> int` is `toInt` (truncation toward zero), an `int / int` division
  is `Int.tdiv`.
* The painter is a trace: `paintEvent` returns the list of painter calls it issues, or `none`
  when the C++ code dereferences a null pointer or divides an `int` by zero.
* The constants of `typedef.h` (not part of the sources at hand) are the fields of `Config`.
-/

namespace YUView

/-! ## Numbers and points -/

/-- Conversion of a `double` to `int` as C++ does it: the fractional part is discarded. -/
def toInt (d : ℚ) : Int :=
  if 0 ≤ d then ⌊d⌋ else -⌊-d⌋

/-- Rounding helper `qRound(double)` of the Qt 5 headers the widget was written against:
`d >= 0.0 ? int(d + 0.5) : int(d - double(int(d-1)) + 0.5) + int(d-1)`. -/
def qRound (d : ℚ) : Int :=
  if 0 ≤ d then toInt (d + 1 / 2)
  else toInt (d - ((toInt (d - 1) : Int) : ℚ) + 1 / 2) + toInt (d - 1)

/-- Integer point `QPoint`. -/
structure QPoint where
  x : Int
  y : Int
deriving DecidableEq, Repr

namespace QPoint

/-- Member `QPoint::isNull`: both coordinates are 0. -/
def isNull (p : QPoint) : Bool :=
  p.x == 0 && p.y == 0

/-- Sum of two points, `operator+`. -/
def add (a b : QPoint) : QPoint :=
  ⟨a.x + b.x, a.y + b.y⟩

/-- Difference of two points, `operator-`. -/
def sub (a b : QPoint) : QPoint :=
  ⟨a.x - b.x, a.y - b.y⟩

/-- In-place scaling `operator*=(int)`. -/
def mulInt (p : QPoint) (c : Int) : QPoint :=
  ⟨p.x * c, p.y * c⟩

/-- Division `operator/=(qreal)` and `operator/(QPoint, qreal)`: each coordinate is divided
as a real number and rounded with `qRound`. -/
def divReal (p : QPoint) (c : ℚ) : QPoint :=
  ⟨qRound ((p.x : ℚ) / c), qRound ((p.y : ℚ) / c)⟩

end QPoint

/-- Integer rectangle `QRect`, stored by its corner coordinates as Qt does. -/
structure QRect where
  x1 : Int
  y1 : Int
  x2 : Int
  y2 : Int
deriving DecidableEq, Repr

namespace QRect

/-- Constructor `QRect(left, top, width, height)`. -/
def mk4 (l t w h : Int) : QRect :=
  ⟨l, t, l + w - 1, t + h - 1⟩

/-- Member `QRect::setWidth`. -/
def setWidth (r : QRect) (w : Int) : QRect :=
  { r with x2 := r.x1 + w - 1 }

/-- Member `QRect::moveBottomRight`. -/
def moveBottomRight (r : QRect) (p : QPoint) : QRect :=
  ⟨r.x1 + (p.x - r.x2), r.y1 + (p.y - r.y2), p.x, p.y⟩

/-- Member `QRect::center`. -/
def center (r : QRect) : QPoint :=
  ⟨Int.tdiv (r.x1 + r.x2) 2, Int.tdiv (r.y1 + r.y2) 2⟩

/-- Member `QRect::width`. -/
def width (r : QRect) : Int :=
  r.x2 - r.x1 + 1

/-- Member `QRect::height`. -/
def height (r : QRect) : Int :=
  r.y2 - r.y1 + 1

/-- Member `QRect::contains(QPoint)` for a rectangle of non-negative extent. -/
def contains (r : QRect) (p : QPoint) : Bool :=
  decide (r.x1 ≤ p.x) && decide (p.x ≤ r.x2) && decide (r.y1 ≤ p.y) && decide (p.y ≤ r.y2)

end QRect

/-! ## Configuration and widget state -/

/-- The preprocessor constants of `typedef.h` that `splitViewWidget.cpp` uses. The header is
not among the sources, so the constants are parameters of the model. -/
structure Config where
  SPLITVIEWWIDGET_ZOOM_STEP_FACTOR : Int
  SPLITVIEWWIDGET_ZOOM_OUT_MOUSE : Int
  SPLITVIEWWIDGET_SPLITTER_CLIPX : Int
  SPLITVIEWWIDGET_SPLITTER_MARGIN : Int
deriving DecidableEq, Repr

/-- Modelled from the spec: the helper `clip(value, lower, upper)` of `typedef.h`, which is
not among the sources. The spec (4.4) says the splitter position is "clamped to configured
bounds"; the value is limited from above by `upper` and then from below by `lower`. -/
def clip (n lower upper : Int) : Int :=
  max lower (min n upper)

/-- View modes of the split view. -/
inductive ViewMode where
  | SIDE_BY_SIDE
  | COMPARISON
deriving DecidableEq, Repr

/-- Styles of the splitter affordance. -/
inductive SplittingLineStyle where
  | SOLID_LINE
  | TOP_BOTTOM_HANDLERS
deriving DecidableEq, Repr

/-- Cursor shapes the widget sets. -/
inductive CursorShape where
  | ArrowCursor
  | SplitHCursor
deriving DecidableEq, Repr

/-- What the widget reads of a `playlistItem`: the size `getVideoSize()`. -/
structure PlaylistItem where
  videoWidth : Int
  videoHeight : Int
deriving DecidableEq, Repr

/-- The fields of `splitViewWidget` together with what it reads from its `QWidget` base
(geometry in the parent, size, cursor) and from its two collaborators: `playlist` is `none`
for a NULL pointer and otherwise holds the two selected items (each possibly NULL);
`playback` is `none` for a NULL pointer and otherwise holds the current frame index. -/
structure Widget where
  geometryX : Int
  geometryY : Int
  width : Int
  height : Int
  cursor : CursorShape
  splittingPoint : ℚ
  splittingDragging : Bool
  splitting : Bool
  viewDragging : Bool
  viewMode : ViewMode
  drawZoomBox : Bool
  drawRegularGrid : Bool
  regularGridSize : Int
  zoomBoxMousePosition : QPoint
  playlist : Option (Option PlaylistItem × Option PlaylistItem)
  playback : Option Int
  splittingLineStyle : SplittingLineStyle
  centerOffset : QPoint
  zoomFactor : ℚ
  viewDraggingMousePosStart : QPoint
  viewDraggingStartOffset : QPoint
deriving DecidableEq

/-- The constructor `splitViewWidget::splitViewWidget`. The geometry comes from the host
layout and the line style from the settings store (`updateSettings`). -/
def construct (gx gy w h : Int) (style : SplittingLineStyle) : Widget :=
  { geometryX := gx
    geometryY := gy
    width := w
    height := h
    cursor := CursorShape.ArrowCursor
    splittingPoint := 1 / 2
    splittingDragging := false
    splitting := false
    viewDragging := false
    viewMode := ViewMode.SIDE_BY_SIDE
    drawZoomBox := false
    drawRegularGrid := false
    regularGridSize := 64
    zoomBoxMousePosition := ⟨0, 0⟩
    playlist := none
    playback := none
    splittingLineStyle := style
    centerOffset := ⟨0, 0⟩
    zoomFactor := 1
    viewDraggingMousePosStart := ⟨0, 0⟩
    viewDraggingStartOffset := ⟨0, 0⟩ }

/-- The method `setSplitEnabled`. -/
def setSplitEnabled (s : Widget) (flag : Bool) : Widget :=
  if s.splitting ≠ flag then { s with splitting := flag } else s

/-! ## Geometry shared by painting and zooming -/

/-- The x position of the split, `int(drawArea_botR.x() * splittingPoint)`. -/
def xSplit (s : Widget) : Int :=
  toInt ((s.width : ℚ) * s.splittingPoint)

/-- The centre of the pane a zoom point falls in, as `zoomIn` and `zoomOut` compute it. -/
def zoomCenterPoint (s : Widget) (zoomPoint : QPoint) : QPoint :=
  let drawArea_botR : QPoint := ⟨s.width, s.height⟩
  if s.splitting && s.viewMode == ViewMode.SIDE_BY_SIDE then
    if zoomPoint.x > xSplit s then
      ⟨xSplit s + Int.tdiv (drawArea_botR.x - xSplit s) 2, Int.tdiv drawArea_botR.y 2⟩
    else
      ⟨Int.tdiv (xSplit s) 2, Int.tdiv drawArea_botR.y 2⟩
  else
    drawArea_botR.divReal 2

/-! ## Zooming and resetting -/

/-- The method `zoomIn(QPoint zoomPoint)`. -/
def zoomIn (cfg : Config) (s : Widget) (zoomPoint : QPoint) : Widget :=
  let newOffset : QPoint :=
    if !zoomPoint.isNull then
      let centerPoint := zoomCenterPoint s zoomPoint
      let itemCenter := centerPoint.add s.centerOffset
      let diff := (itemCenter.sub zoomPoint).mulInt cfg.SPLITVIEWWIDGET_ZOOM_STEP_FACTOR
      let itemCenter := zoomPoint.add diff
      itemCenter.sub centerPoint
    else
      s.centerOffset.mulInt cfg.SPLITVIEWWIDGET_ZOOM_STEP_FACTOR
  { s with
    centerOffset := newOffset
    zoomFactor := s.zoomFactor * (cfg.SPLITVIEWWIDGET_ZOOM_STEP_FACTOR : ℚ) }

/-- The method `zoomOut(QPoint zoomPoint)`. -/
def zoomOut (cfg : Config) (s : Widget) (zoomPoint : QPoint) : Widget :=
  let newOffset : QPoint :=
    if !zoomPoint.isNull && cfg.SPLITVIEWWIDGET_ZOOM_OUT_MOUSE == 1 then
      let centerPoint := zoomCenterPoint s zoomPoint
      let itemCenter := centerPoint.add s.centerOffset
      let diff := (itemCenter.sub zoomPoint).divReal (cfg.SPLITVIEWWIDGET_ZOOM_STEP_FACTOR : ℚ)
      let itemCenter := zoomPoint.add diff
      itemCenter.sub centerPoint
    else
      s.centerOffset.divReal (cfg.SPLITVIEWWIDGET_ZOOM_STEP_FACTOR : ℚ)
  { s with
    centerOffset := newOffset
    zoomFactor := s.zoomFactor / (cfg.SPLITVIEWWIDGET_ZOOM_STEP_FACTOR : ℚ) }

/-- The method `wheelEvent`: `p` is the event position and `delta` the wheel rotation. -/
def wheelEvent (cfg : Config) (s : Widget) (p : QPoint) (delta : Int) : Widget :=
  if delta > 0 then zoomIn cfg s p else zoomOut cfg s p

/-- The method `resetViews`. -/
def resetViews (s : Widget) : Widget :=
  { s with
    centerOffset := ⟨0, 0⟩
    zoomFactor := 1
    splittingPoint := 1 / 2 }

/-! ## Mouse handlers -/

/-- Mouse buttons an event can carry. -/
inductive MouseButton where
  | NoButton
  | LeftButton
  | RightButton
  | MidButton
deriving DecidableEq, Repr

/-- What the handlers read of a `QMouseEvent`: the button and the position. -/
structure QMouseEvent where
  button : MouseButton
  pos : QPoint
deriving DecidableEq, Repr

/-- The pixel position of the splitter that the mouse handlers compare the cursor with,
`int((width()-2) * splittingPoint)`. -/
def splitPosPix (s : Widget) : Int :=
  toInt (((s.width - 2 : Int) : ℚ) * s.splittingPoint)

/-- The test both handlers use: the cursor is within the margin around the splitter. -/
def overSplitter (cfg : Config) (s : Widget) (e : QMouseEvent) : Bool :=
  decide (e.pos.x > splitPosPix s - cfg.SPLITVIEWWIDGET_SPLITTER_MARGIN) &&
    decide (e.pos.x < splitPosPix s + cfg.SPLITVIEWWIDGET_SPLITTER_MARGIN)

/-- The new splitting point for a mouse at `x`: the clipped pixel position over `width()-2`. -/
def dragSplittingPoint (cfg : Config) (s : Widget) (x : Int) : ℚ :=
  let xClip := clip x cfg.SPLITVIEWWIDGET_SPLITTER_CLIPX
    (s.width - 2 - cfg.SPLITVIEWWIDGET_SPLITTER_CLIPX)
  (xClip : ℚ) / ((s.width - 2 : Int) : ℚ)

/-- The method `mouseMoveEvent`. -/
def mouseMoveEvent (cfg : Config) (s : Widget) (e : QMouseEvent) : Widget :=
  let s1 : Widget :=
    if e.button = MouseButton.NoButton then
      if s.splitting && s.splittingDragging then
        { s with splittingPoint := dragSplittingPoint cfg s e.pos.x }
      else if s.viewDragging then
        { s with
          centerOffset := s.viewDraggingStartOffset.add (e.pos.sub s.viewDraggingMousePosStart) }
      else if s.splitting then
        if overSplitter cfg s e then { s with cursor := CursorShape.SplitHCursor }
        else { s with cursor := CursorShape.ArrowCursor }
      else s
    else s
  if s1.drawZoomBox then
    if s1.zoomBoxMousePosition ≠ e.pos then { s1 with zoomBoxMousePosition := e.pos } else s1
  else s1

/-- The method `mousePressEvent`. -/
def mousePressEvent (cfg : Config) (s : Widget) (e : QMouseEvent) : Widget :=
  if e.button = MouseButton.LeftButton then
    if s.splitting && overSplitter cfg s e then { s with splittingDragging := true } else s
  else if e.button = MouseButton.RightButton then
    { s with
      viewDragging := true
      cursor := CursorShape.ArrowCursor
      viewDraggingMousePosStart := e.pos
      viewDraggingStartOffset := s.centerOffset }
  else s

/-- The method `mouseReleaseEvent`. -/
def mouseReleaseEvent (cfg : Config) (s : Widget) (e : QMouseEvent) : Widget :=
  if e.button = MouseButton.LeftButton ∧ s.splitting = true ∧ s.splittingDragging = true then
    { s with
      splittingPoint := dragSplittingPoint cfg s e.pos.x
      splittingDragging := false }
  else if e.button = MouseButton.RightButton ∧ s.viewDragging = true then
    { s with
      centerOffset := s.viewDraggingStartOffset.add (e.pos.sub s.viewDraggingMousePosStart)
      viewDragging := false }
  else s

/-! ## Painting -/

/-- The calls on the painter, on the items and on the text document that a paint issues.
`drawInfoPanel` stands for the block that lays out and draws the coordinate/value panel
(the text size decides its exact place; `anchorX`, `anchorY` are the corner it is aligned
to); `fillPath` stands for the two triangular handles at the split position. -/
inductive PaintOp where
  | setClipRegion (r : QRect)
  | setClipping (enable : Bool)
  | translate (dx dy : ℚ)
  | resetTransform
  | drawFrame (view : Nat) (frame : Int) (zoom : ℚ)
  | drawLine (x1 y1 x2 y2 : Int)
  | drawRect (r : QRect)
  | fillRect (r : QRect)
  | getPixelValues (view : Nat) (pos : QPoint)
  | drawInfoPanel (view : Nat) (anchorX anchorY : Int) (pos : QPoint) (withValues : Bool)
  | fillPath (xSplit height : Int)
  | drawText (zoom : ℚ)
deriving DecidableEq

/-- Whether a call puts something on the screen (as opposed to changing the painter state or
querying an item). -/
def PaintOp.isDrawing : PaintOp → Bool
  | .drawFrame _ _ _ => true
  | .drawLine _ _ _ _ => true
  | .drawRect _ => true
  | .fillRect _ => true
  | .drawInfoPanel _ _ _ _ _ => true
  | .fillPath _ _ => true
  | .drawText _ => true
  | _ => false

/-- The centre points of the two panes, as `paintEvent` computes them. -/
def centerPoints (s : Widget) : QPoint × QPoint :=
  let drawArea_botR : QPoint := ⟨s.width, s.height⟩
  if s.viewMode == ViewMode.COMPARISON || !s.splitting then
    (drawArea_botR.divReal 2, drawArea_botR.divReal 2)
  else
    let y := Int.tdiv drawArea_botR.y 2
    (⟨Int.tdiv (xSplit s) 2, y⟩, ⟨xSplit s + Int.tdiv (drawArea_botR.x - xSplit s) 2, y⟩)

/-- Whether `paintEvent` takes a cursor position to be in the right pane. -/
def mouseInLeftOrRightView (s : Widget) (p : QPoint) : Bool :=
  s.splitting && decide (p.x > xSplit s)

/-- The centre point `paintEvent` uses for the pane that contains `p`. -/
def paneCentre (s : Widget) (p : QPoint) : QPoint :=
  if mouseInLeftOrRightView s p then (centerPoints s).2 else (centerPoints s).1

/-- One coordinate of the pixel position under the cursor: `diffInItem` is the difference
computed before the loop and `itemSize` the item extent. A value below zero is lowered by
one before the conversion to `int`. -/
def pixelCoord (diffInItem : ℚ) (itemSize : Int) : Int :=
  let pixelPos : ℚ := -diffInItem + (itemSize : ℚ) / 2 + 1 / 2
  let pixelPos : ℚ := if pixelPos < 0 then pixelPos - 1 else pixelPos
  toInt pixelPos

/-- The difference in the item under the mouse, normalised by the zoom factor. -/
def diffInItem (itemCenterMousePos mouse : Int) (zoomFactor : ℚ) : ℚ :=
  ((itemCenterMousePos - mouse : Int) : ℚ) / zoomFactor + 1 / 2

/-- What `paintEvent` computes per pane for the zoom box. -/
structure ViewInfo where
  pixelPos : QPoint
  pixelPosInItem : Bool
  zoomPixelRect : QRect
  itemZoomBoxTranslation : ℚ × ℚ
deriving DecidableEq

/-- The initial values of the per-pane arrays (default constructed points and rectangle). -/
def ViewInfo.initial : ViewInfo :=
  ⟨⟨0, 0⟩, false, ⟨0, 0, -1, -1⟩, (0, 0)⟩

/-- The body of the loop over the views in `paintEvent`. -/
def viewInfo (s : Widget) (diff : ℚ × ℚ) (item : PlaylistItem) : ViewInfo :=
  let pixelPos : QPoint := ⟨pixelCoord diff.1 item.videoWidth, pixelCoord diff.2 item.videoHeight⟩
  let translation : ℚ × ℚ :=
    ((item.videoWidth : ℚ) / 2 - (pixelPos.x : ℚ) - 1 / 2,
     (item.videoHeight : ℚ) / 2 - (pixelPos.y : ℚ) - 1 / 2)
  let inItem : Bool :=
    (decide (pixelPos.x ≥ 0) && decide ((pixelPos.x : ℚ) < (item.videoWidth : ℚ))) &&
    (decide (pixelPos.y ≥ 0) && decide ((pixelPos.y : ℚ) < (item.videoHeight : ℚ)))
  let rect : QRect :=
    if inItem then
      QRect.mk4
        (toInt (-(((item.videoWidth : ℚ) / 2 - (pixelPos.x : ℚ)) * s.zoomFactor)))
        (toInt (-(((item.videoHeight : ℚ) / 2 - (pixelPos.y : ℚ)) * s.zoomFactor)))
        (toInt s.zoomFactor) (toInt s.zoomFactor)
    else ViewInfo.initial.zoomPixelRect
  ⟨pixelPos, inItem, rect, translation⟩

/-- The number of views the loop runs over. -/
def viewNum (s : Widget) (item1 : Option PlaylistItem) : Nat :=
  if s.splitting && item1.isSome then 2 else 1

/-- The condition under which `paintEvent` computes pixel positions: an item is selected,
the zoom box is enabled and the widget geometry contains the tracked mouse position. -/
def zoomBoxActive (s : Widget) (item0 item1 : Option PlaylistItem) : Bool :=
  let anyItemsSelected := item0.isSome || item1.isSome
  let geometry := QRect.mk4 s.geometryX s.geometryY s.width s.height
  anyItemsSelected && s.drawZoomBox && geometry.contains s.zoomBoxMousePosition

/-- The zoom box block of `paintEvent`: the per-pane values after it, for the selected items
`item0` and `item1`. The result is `none` when the loop dereferences a NULL item. -/
def zoomBoxInfos (s : Widget) (item0 item1 : Option PlaylistItem) : Option (ViewInfo × ViewInfo) :=
  if zoomBoxActive s item0 item1 then
    let itemCenterMousePos := (paneCentre s s.zoomBoxMousePosition).add s.centerOffset
    let diff : ℚ × ℚ :=
      (diffInItem itemCenterMousePos.x s.zoomBoxMousePosition.x s.zoomFactor,
       diffInItem itemCenterMousePos.y s.zoomBoxMousePosition.y s.zoomFactor)
    match item0 with
    | none => none
    | some it0 =>
      if viewNum s item1 = 2 then
        match item1 with
        | none => none
        | some it1 => some (viewInfo s diff it0, viewInfo s diff it1)
      else some (viewInfo s diff it0, ViewInfo.initial)
  else some (ViewInfo.initial, ViewInfo.initial)

/-- The number of grid lines a loop of `paintRegularGrid` draws for an extent. -/
def gridLineCount (extent gridZoom : Int) : Nat :=
  (Int.tdiv (extent - 1) gridZoom).toNat

/-- The method `paintRegularGrid`. The result is `none` when the integer grid spacing is 0,
which the loops divide by. -/
def paintRegularGrid (s : Widget) (item : PlaylistItem) : Option (List PaintOp) :=
  let itemW := qRound ((item.videoWidth : ℚ) * s.zoomFactor)
  let itemH := qRound ((item.videoHeight : ℚ) * s.zoomFactor)
  let xMin := Int.tdiv (-itemW) 2
  let xMax := Int.tdiv itemW 2
  let gridZoom := toInt ((s.regularGridSize : ℚ) * s.zoomFactor)
  if gridZoom = 0 then none
  else
    let yMin := Int.tdiv (-itemH) 2
    let yMax := Int.tdiv itemH 2
    let horizontal := (List.range (gridLineCount itemH gridZoom)).map fun k =>
      let yPos := Int.tdiv (-itemH) 2 + ((k : Int) + 1) * gridZoom
      PaintOp.drawLine xMin yPos xMax yPos
    let vertical := (List.range (gridLineCount itemW gridZoom)).map fun k =>
      let xPos := Int.tdiv (-itemW) 2 + ((k : Int) + 1) * gridZoom
      PaintOp.drawLine xPos yMin xPos yMax
    some (horizontal ++ vertical)

/-- Whether a clip rectangle is an empty region. -/
def QRect.isEmpty (r : QRect) : Bool :=
  decide (r.x1 > r.x2) || decide (r.y1 > r.y2)

/-- The method `paintZoomBox`. `clipRegion` is the clip region the painter has on entry
(`none` when clipping is off). -/
def paintZoomBox (s : Widget) (view : Nat) (xSplit : Int) (drawArea_botR : QPoint)
    (itemZoomBoxTranslation : ℚ × ℚ) (frame : Int) (pixelPos : QPoint) (pixelPosInItem : Bool)
    (clipRegion : Option QRect) : List PaintOp :=
  if !s.drawZoomBox then []
  else
    let zoomBoxFactor : Int := 32
    let srcSize : Int := 5
    let targetSizeHalf : Int := Int.tdiv (srcSize * zoomBoxFactor) 2
    let margin : Int := 11
    let zoomViewRect := QRect.mk4 0 0 (targetSizeHalf * 2) (targetSizeHalf * 2)
    let partlyHidden : Bool :=
      view == 1 && decide (xSplit > drawArea_botR.x - margin - targetSizeHalf * 2)
    if partlyHidden && decide (xSplit > drawArea_botR.x - margin) then []
    else
      let zoomViewRect :=
        if partlyHidden then zoomViewRect.setWidth (drawArea_botR.x - xSplit - margin)
        else zoomViewRect
      let drawInfoPanel : Bool := !partlyHidden
      let zoomViewRect :=
        if view == 0 && s.splitting then
          zoomViewRect.moveBottomRight ⟨xSplit - margin, drawArea_botR.y - margin⟩
        else zoomViewRect.moveBottomRight (drawArea_botR.sub ⟨margin, margin⟩)
      let restoreClip : PaintOp :=
        match clipRegion with
        | none => PaintOp.setClipping false
        | some r => if r.isEmpty then PaintOp.setClipping false else PaintOp.setClipRegion r
      let anchorX : Int :=
        if view == 0 && s.splitting then xSplit - margin - targetSizeHalf * 2
        else drawArea_botR.x - margin - targetSizeHalf * 2
      [ PaintOp.fillRect zoomViewRect,
        PaintOp.setClipRegion zoomViewRect,
        PaintOp.translate (zoomViewRect.center.x : ℚ) (zoomViewRect.center.y : ℚ),
        PaintOp.translate (itemZoomBoxTranslation.1 * (zoomBoxFactor : ℚ))
          (itemZoomBoxTranslation.2 * (zoomBoxFactor : ℚ)),
        PaintOp.drawFrame view frame (zoomBoxFactor : ℚ),
        PaintOp.resetTransform,
        restoreClip,
        PaintOp.drawRect zoomViewRect ] ++
      (if drawInfoPanel then
        (if pixelPosInItem then [PaintOp.getPixelValues view pixelPos] else []) ++
        [PaintOp.drawInfoPanel view anchorX (drawArea_botR.y - margin) pixelPos pixelPosInItem,
         PaintOp.resetTransform]
       else [])

/-- The part of `paintEvent` that draws one item into its pane: translation, the frame, the
regular grid, the rectangle around the pixel under the cursor, and the zoom box. -/
def paintItem (s : Widget) (view : Nat) (centerPoint : QPoint) (item : PlaylistItem)
    (frame : Int) (info : ViewInfo) (clipRegion : Option QRect) : Option (List PaintOp) :=
  match (if s.drawRegularGrid then paintRegularGrid s item else some []) with
  | none => none
  | some grid =>
    let drawArea_botR : QPoint := ⟨s.width, s.height⟩
    let c := centerPoint.add s.centerOffset
    some ([PaintOp.translate (c.x : ℚ) (c.y : ℚ), PaintOp.drawFrame view frame s.zoomFactor] ++
      grid ++
      (if info.pixelPosInItem then [PaintOp.drawRect info.zoomPixelRect] else []) ++
      [PaintOp.resetTransform] ++
      paintZoomBox s view (xSplit s) drawArea_botR info.itemZoomBoxTranslation frame
        info.pixelPos info.pixelPosInItem clipRegion)

/-- The splitter affordance `paintEvent` draws when splitting is on. -/
def paintSplitter (s : Widget) : List PaintOp :=
  if s.splitting then
    if s.splittingLineStyle = SplittingLineStyle.TOP_BOTTOM_HANDLERS then
      [PaintOp.fillPath (xSplit s) s.height]
    else [PaintOp.drawLine (xSplit s) 0 (xSplit s) s.height]
  else []

/-- The zoom factor label `paintEvent` draws when the factor is not 1.0. -/
def paintZoomFactor (s : Widget) : List PaintOp :=
  if s.zoomFactor ≠ 1 then [PaintOp.drawText s.zoomFactor] else []

/-- The items part of `paintEvent` (the `if (splitting) ... else ...` block). -/
def paintItems (s : Widget) (item0 item1 : Option PlaylistItem) (frame : Int)
    (infos : ViewInfo × ViewInfo) : Option (List PaintOp) :=
  let drawArea_botR : QPoint := ⟨s.width, s.height⟩
  if s.splitting then
    let clip0 := QRect.mk4 0 0 (xSplit s) drawArea_botR.y
    let clip1 := QRect.mk4 (xSplit s) 0 (drawArea_botR.x - xSplit s) drawArea_botR.y
    let left : Option (List PaintOp) :=
      match item0 with
      | none => some []
      | some it =>
        (paintItem s 0 (centerPoints s).1 it frame infos.1 (some clip0)).map
          fun ops => PaintOp.setClipRegion clip0 :: ops
    let right : Option (List PaintOp) :=
      match item1 with
      | none => some []
      | some it =>
        (paintItem s 1 (centerPoints s).2 it frame infos.2 (some clip1)).map
          fun ops => PaintOp.setClipRegion clip1 :: ops
    match left, right with
    | some l, some r => some (l ++ r ++ [PaintOp.setClipping false])
    | _, _ => none
  else
    match item0 with
    | none => some []
    | some it => paintItem s 0 (drawArea_botR.divReal 2) it frame infos.1 none

/-- The method `paintEvent`: the list of calls it issues, or `none` when it dereferences a
NULL pointer (`playback`, an item) or divides by a zero grid spacing. -/
def paintEvent (s : Widget) : Option (List PaintOp) :=
  match s.playlist with
  | none => some []
  | some (item0, item1) =>
    match s.playback with
    | none => none
    | some frame =>
      match zoomBoxInfos s item0 item1 with
      | none => none
      | some infos =>
        match paintItems s item0 item1 frame infos with
        | none => none
        | some ops => some (ops ++ paintSplitter s ++ paintZoomFactor s)

/-! ## Configuration setters and runs of operations -/

/-- Modelled from the spec: the setter behind the view mode control, declared in
`splitViewWidget.h`, which is not among the sources. The spec (6) lists the "configuration
setters (split enable, view mode, grid size/enable, zoom-box enable)". -/
def setViewMode (s : Widget) (m : ViewMode) : Widget :=
  { s with viewMode := m }

/-- Modelled from the spec: the setter behind the regular grid check box, declared in
`splitViewWidget.h`, which is not among the sources (spec 6, "grid size/enable"). -/
def setRegularGridEnabled (s : Widget) (flag : Bool) : Widget :=
  { s with drawRegularGrid := flag }

/-- Modelled from the spec: the setter behind the grid size box, declared in
`splitViewWidget.h`, which is not among the sources (spec 6, "grid size/enable"). -/
def setRegularGridSize (s : Widget) (size : Int) : Widget :=
  { s with regularGridSize := size }

/-- Modelled from the spec: the setter behind the zoom box check box, declared in
`splitViewWidget.h`, which is not among the sources (spec 6, "zoom-box enable"). -/
def setZoomBoxEnabled (s : Widget) (flag : Bool) : Widget :=
  { s with drawZoomBox := flag }

/-- The operations the host can invoke on a widget. -/
inductive Op where
  | zoomIn (p : QPoint)
  | zoomOut (p : QPoint)
  | wheelEvent (p : QPoint) (delta : Int)
  | resetViews
  | mouseMoveEvent (e : QMouseEvent)
  | mousePressEvent (e : QMouseEvent)
  | mouseReleaseEvent (e : QMouseEvent)
  | setSplitEnabled (flag : Bool)
  | setViewMode (m : ViewMode)
  | setRegularGridEnabled (flag : Bool)
  | setRegularGridSize (size : Int)
  | setZoomBoxEnabled (flag : Bool)
deriving DecidableEq

/-- The effect of one operation on the widget state. -/
def step (cfg : Config) (s : Widget) : Op → Widget
  | .zoomIn p => zoomIn cfg s p
  | .zoomOut p => zoomOut cfg s p
  | .wheelEvent p delta => wheelEvent cfg s p delta
  | .resetViews => resetViews s
  | .mouseMoveEvent e => mouseMoveEvent cfg s e
  | .mousePressEvent e => mousePressEvent cfg s e
  | .mouseReleaseEvent e => mouseReleaseEvent cfg s e
  | .setSplitEnabled flag => setSplitEnabled s flag
  | .setViewMode m => setViewMode s m
  | .setRegularGridEnabled flag => setRegularGridEnabled s flag
  | .setRegularGridSize size => setRegularGridSize s size
  | .setZoomBoxEnabled flag => setZoomBoxEnabled s flag

/-- The state after a sequence of operations. -/
def run (cfg : Config) (s : Widget) (ops : List Op) : Widget :=
  ops.foldl (step cfg) s

/-- The item-local coordinate under a screen point `p`:
`(p - (paneCentre + centerOffset)) / zoomFactor`, per coordinate. -/
def itemCoord (s : Widget) (p : QPoint) : ℚ × ℚ :=
  let c := (paneCentre s p).add s.centerOffset
  (((p.x - c.x : Int) : ℚ) / s.zoomFactor, ((p.y - c.y : Int) : ℚ) / s.zoomFactor)

/-- The distance from the cursor to the absolute item centre, per coordinate. -/
def anchorDiff (s : Widget) (p : QPoint) : QPoint :=
  ((paneCentre s p).add s.centerOffset).sub p

/-- The margin fraction `SPLITVIEWWIDGET_SPLITTER_CLIPX / (width()-2)` of the splitter. -/
def marginFraction (cfg : Config) (s : Widget) : ℚ :=
  (cfg.SPLITVIEWWIDGET_SPLITTER_CLIPX : ℚ) / ((s.width - 2 : Int) : ℚ)

/-! ## Sample inputs for concrete evaluations -/

/-- A sample configuration: step factor 2, zoom out anchored at the mouse, a splitter clip
margin of 10 pixels and a grab margin of 4 pixels. -/
def sampleConfig : Config :=
  ⟨2, 1, 10, 4⟩

/-- A freshly constructed widget of 100 x 100 pixels at the origin of its parent. -/
def sampleWidget : Widget :=
  construct 0 0 100 100 SplittingLineStyle.SOLID_LINE

/-- A widget only 11 pixels wide in which the splitter is being dragged: split mode is
switched on and the left button is pressed on the splitter. -/
def narrowDraggedWidget : Widget :=
  run sampleConfig (construct 0 0 11 100 SplittingLineStyle.SOLID_LINE)
    [Op.setSplitEnabled true, Op.mousePressEvent ⟨MouseButton.LeftButton, ⟨5, 50⟩⟩]

/-- The sample widget in split mode with the splitter being dragged. -/
def draggedWidget : Widget :=
  { sampleWidget with splitting := true, splittingDragging := true }

/-- The value the pixel position is specified to have, per coordinate: the floor of
`(cursor - (paneCentre + centerOffset)) / zoomFactor + itemSize/2`. Here `centre` stands for
the absolute item centre `paneCentre + centerOffset`. This follows the wording of the
specification and is compared with `pixelCoord`, which follows the code. -/
def specPixelCoord (cursor centre : Int) (zoomFactor : ℚ) (itemSize : Int) : Int :=
  ⌊((cursor - centre : Int) : ℚ) / zoomFactor + (itemSize : ℚ) / 2⌋

/-- The sample widget with both collaborators set, one item of 4 x 4 pixels selected, the
zoom box enabled and the mouse tracked at (47, 50). -/
def zoomBoxWidget : Widget :=
  { sampleWidget with
    playlist := some (some ⟨4, 4⟩, none)
    playback := some 0
    drawZoomBox := true
    zoomBoxMousePosition := ⟨47, 50⟩ }

/-- The fresh sample widget after the regular grid is switched on and the view is zoomed out
seven times (without a zoom point). -/
def zoomedOutGridWidget : Widget :=
  run sampleConfig sampleWidget
    [Op.setRegularGridEnabled true, Op.zoomOut ⟨0, 0⟩, Op.zoomOut ⟨0, 0⟩, Op.zoomOut ⟨0, 0⟩,
     Op.zoomOut ⟨0, 0⟩, Op.zoomOut ⟨0, 0⟩, Op.zoomOut ⟨0, 0⟩, Op.zoomOut ⟨0, 0⟩]

/-- The widget `zoomedOutGridWidget` with both collaborators set and one item of 640 x 480
pixels selected. -/
def zoomedOutGridWidgetWithItem : Widget :=
  { zoomedOutGridWidget with
    playlist := some (some ⟨640, 480⟩, none)
    playback := some 0 }

/-- The sample widget with the playlist set (nothing selected) and the playback controller
still NULL. -/
def playlistOnlyWidget : Widget :=
  { sampleWidget with playlist := some (none, none) }

/-- The sample widget in split mode with both collaborators set and nothing selected. -/
def splitNoSelectionWidget : Widget :=
  { sampleWidget with
    playlist := some (none, none)
    playback := some 0
    splitting := true }

/-- The item a pane shows: `item[view]` of the two selected items the playlist returns. -/
def selectedItem (s : Widget) (view : Nat) : Option PlaylistItem :=
  match s.playlist with
  | none => none
  | some (item0, item1) => if view = 0 then item0 else if view = 1 then item1 else none

/-- A widget of 400 x 300 pixels with both collaborators set, one item of 4 x 4 pixels
selected, the zoom box enabled and the mouse tracked at the centre (200, 150). -/
def inspectWidget : Widget :=
  { construct 0 0 400 300 SplittingLineStyle.SOLID_LINE with
    playlist := some (some ⟨4, 4⟩, none)
    playback := some 0
    drawZoomBox := true
    zoomBoxMousePosition := ⟨200, 150⟩ }

/-- A widget of 400 x 300 pixels on which the zoom box is enabled, the left button is pressed
at (10, 10) and the mouse is then moved, with the button held, to (450, 150), which is
outside the widget; after that both collaborators are set and one item is selected. -/
def cursorOutsideWidget : Widget :=
  { run sampleConfig (construct 0 0 400 300 SplittingLineStyle.SOLID_LINE)
      [Op.setZoomBoxEnabled true, Op.mousePressEvent ⟨MouseButton.LeftButton, ⟨10, 10⟩⟩,
       Op.mouseMoveEvent ⟨MouseButton.NoButton, ⟨450, 150⟩⟩] with
    playlist := some (some ⟨4, 4⟩, none)
    playback := some 0 }

/-- The inset rectangle of the zoom box as `paintZoomBox` places it before any resizing:
160 x 160 pixels (5 source pixels at factor 32) with its bottom right corner 11 pixels from
the bottom right of the pane (pane 0 of a split view) or of the viewport (otherwise). -/
def insetRect (splitting : Bool) (view : Nat) (xSplit : Int) (drawArea_botR : QPoint) : QRect :=
  let zoomViewRect := QRect.mk4 0 0 160 160
  if view == 0 && splitting then
    zoomViewRect.moveBottomRight ⟨xSplit - 11, drawArea_botR.y - 11⟩
  else zoomViewRect.moveBottomRight (drawArea_botR.sub ⟨11, 11⟩)

/-- The visible region of a pane within the viewport, which is the clip region `paintEvent`
sets for the pane: left of the split position for pane 0 of a split view, from the split
position on for pane 1, the whole viewport without splitting. -/
def paneRect (splitting : Bool) (view : Nat) (xSplit : Int) (drawArea_botR : QPoint) : QRect :=
  if splitting then
    if view == 0 then QRect.mk4 0 0 xSplit drawArea_botR.y
    else QRect.mk4 xSplit 0 (drawArea_botR.x - xSplit) drawArea_botR.y
  else QRect.mk4 0 0 drawArea_botR.x drawArea_botR.y

/-- Whether a rectangle lies entirely inside another one. -/
def QRect.containsRect (outer inner : QRect) : Bool :=
  decide (outer.x1 ≤ inner.x1) && decide (inner.x2 ≤ outer.x2) &&
    decide (outer.y1 ≤ inner.y1) && decide (inner.y2 ≤ outer.y2)

/-- Whether a paint call is the info panel. -/
def PaintOp.isInfoPanel : PaintOp → Bool
  | .drawInfoPanel _ _ _ _ _ => true
  | _ => false

/-- A split widget state of 400 x 300 pixels with the zoom box enabled. -/
def splitZoomBoxWidget : Widget :=
  { construct 0 0 400 300 SplittingLineStyle.SOLID_LINE with
    splitting := true
    drawZoomBox := true }

/-- A sequence of mouse move events to the given positions, handled one after the other. -/
def dragMoves (cfg : Config) (s : Widget) (moves : List QPoint) : Widget :=
  moves.foldl (fun st p => mouseMoveEvent cfg st ⟨MouseButton.NoButton, p⟩) s

/-- What a right-button drag started at `p0` with offset `o0` keeps true from the press to
the release: the drag flag and the grab data, no splitter drag, and the zoom factor `z` and
splitting point `sp`. -/
def ViewDragInv (p0 o0 : QPoint) (z sp : ℚ) (st : Widget) : Prop :=
  st.viewDragging = true ∧ st.viewDraggingStartOffset = o0 ∧
  st.viewDraggingMousePosStart = p0 ∧
  ¬ (st.splitting = true ∧ st.splittingDragging = true) ∧
  st.zoomFactor = z ∧ st.splittingPoint = sp

/-! ## The file info group box (FileInfoGroupBox.cpp) -/

/-- An `infoItem`: a pair of a name and a value. -/
abbrev InfoItem := String × String

/-- The state of a `FileInfoGroupBox`: the title of the group box, the texts of the labels in
`p_labelList` (the grid layout holds the same label objects) and the counter
`p_nrLabelPairs`. -/
structure FileInfoGroupBox where
  title : String
  p_labelList : List String
  p_nrLabelPairs : Int
deriving DecidableEq, Repr

namespace FileInfoGroupBox

/-- The constructor: empty title, no labels, `p_nrLabelPairs = 0`. -/
def construct : FileInfoGroupBox :=
  ⟨"", [], 0⟩

/-- The method `setFileInfo()` without arguments: it sets the title and deletes all labels.
It does not assign `p_nrLabelPairs`. -/
def setFileInfo (b : FileInfoGroupBox) : FileInfoGroupBox :=
  { b with title := "File Info", p_labelList := [] }

/-- The loop of the update-in-place branch of `setFileInfo(title, list)`, from index `i` for
`n` more rounds. Each round first checks `assert(p_nrLabelPairs * 2 == p_labelList.count())`
and then sets the texts of the labels `2i` and `2i+1`. The result is `none` when the
assertion fails or an index into the label list or the info list is out of range. -/
def updateLabels (nrLabelPairs : Int) (fileInfoList : List InfoItem) :
    Nat → Nat → List String → Option (List String)
  | 0, _, labels => some labels
  | n + 1, i, labels =>
    if nrLabelPairs * 2 = (labels.length : Int) then
      match fileInfoList[i]? with
      | none => none
      | some info =>
        if i * 2 + 1 < labels.length then
          updateLabels nrLabelPairs fileInfoList n (i + 1)
            ((labels.set (i * 2) info.1).set (i * 2 + 1) info.2)
        else none
    else none

/-- The labels the rebuilding branch creates: for each item a name label and a value label,
in list order. -/
def newLabels (fileInfoList : List InfoItem) : List String :=
  fileInfoList.foldl (fun labels info => labels ++ [info.1, info.2]) []

/-- The method `setFileInfo(fileInfoTitle, fileInfoList)`. The result is `none` when the
assertion in the update loop fails. -/
def setFileInfoList (b : FileInfoGroupBox) (fileInfoTitle : String)
    (fileInfoList : List InfoItem) : Option FileInfoGroupBox :=
  if (fileInfoList.length : Int) = b.p_nrLabelPairs then
    match updateLabels b.p_nrLabelPairs fileInfoList b.p_nrLabelPairs.toNat 0 b.p_labelList with
    | none => none
    | some labels => some { b with title := fileInfoTitle, p_labelList := labels }
  else
    some
      { title := fileInfoTitle
        p_labelList := newLabels fileInfoList
        p_nrLabelPairs := (fileInfoList.length : Int) }

/-- The slot `currentSelectedItemsChanged(item1, item2)`: an item is `none` for a NULL pointer
and otherwise carries its info title and info list. -/
def currentSelectedItemsChanged (b : FileInfoGroupBox)
    (item1 _item2 : Option (String × List InfoItem)) : Option FileInfoGroupBox :=
  match item1 with
  | some item => setFileInfoList b item.1 item.2
  | none => some (setFileInfo b)

/-- The operations of the file info box. -/
inductive BoxOp where
  | setFileInfo
  | setFileInfoList (fileInfoTitle : String) (fileInfoList : List InfoItem)
  | currentSelectedItemsChanged (item1 item2 : Option (String × List InfoItem))
deriving DecidableEq, Repr

/-- The effect of one operation; `none` when it fails. -/
def step (b : FileInfoGroupBox) : BoxOp → Option FileInfoGroupBox
  | .setFileInfo => some (setFileInfo b)
  | .setFileInfoList t l => setFileInfoList b t l
  | .currentSelectedItemsChanged i1 i2 => currentSelectedItemsChanged b i1 i2

/-- The state after a sequence of operations on a fresh box; `none` when one of them fails. -/
def run : FileInfoGroupBox → List BoxOp → Option FileInfoGroupBox
  | b, [] => some b
  | b, op :: rest =>
    match step b op with
    | none => none
    | some b1 => run b1 rest

/-- The predicate the assertion of the update loop checks:
`p_labelList.count() == 2 * p_nrLabelPairs`. -/
def labelsMatchPairs (b : FileInfoGroupBox) : Bool :=
  decide ((b.p_labelList.length : Int) = 2 * b.p_nrLabelPairs)

/-- The result the box is specified to have after `setFileInfo(title, list)`: the title is
the given one, there are exactly `2n` labels, and label `2i` shows the name and label `2i+1`
the value of item `i`. -/
def showsFileInfo (b : FileInfoGroupBox) (fileInfoTitle : String)
    (fileInfoList : List InfoItem) : Prop :=
  b.title = fileInfoTitle ∧ b.p_labelList.length = 2 * fileInfoList.length ∧
  ∀ i info, fileInfoList[i]? = some info →
    b.p_labelList[2 * i]? = some info.1 ∧ b.p_labelList[2 * i + 1]? = some info.2

end FileInfoGroupBox

/-- A widget of 400 x 100 pixels, not split, with the zoom box enabled. -/
def lowZoomBoxWidget : Widget :=
  { construct 0 0 400 100 SplittingLineStyle.SOLID_LINE with drawZoomBox := true }

/-! ## Basic facts on rounding -/

theorem toInt_intCast (n : Int) : toInt (n : ℚ) = n := by
  unfold toInt
  split
  · exact Int.floor_intCast n
  · rw [← Int.cast_neg, Int.floor_intCast]; ring

theorem toInt_of_nonneg {d : ℚ} (h : 0 ≤ d) : toInt d = ⌊d⌋ := by
  unfold toInt
  rw [if_pos h]

/-- For every real value, `qRound` is rounding to the nearest integer, halves going up. -/
theorem qRound_eq_floor (d : ℚ) : qRound d = ⌊d + 1 / 2⌋ := by
  unfold qRound
  split
  · rename_i h
    exact toInt_of_nonneg (by linarith)
  · rename_i h
    push_neg at h
    have hk : toInt (d - 1) = -⌊1 - d⌋ := by
      unfold toInt
      rw [if_neg (by linarith)]
      congr 2
      ring
    rw [hk]
    have h1 : (0 : ℚ) ≤ d - ((-⌊1 - d⌋ : Int) : ℚ) + 1 / 2 := by
      have := Int.floor_le (1 - d)
      have := Int.lt_floor_add_one (1 - d)
      push_cast
      linarith
    rw [toInt_of_nonneg h1]
    have h2 : d - ((-⌊1 - d⌋ : Int) : ℚ) + 1 / 2 = (d + 1 / 2) + ((⌊1 - d⌋ : Int) : ℚ) := by
      push_cast
      ring
    rw [h2, Int.floor_add_int]
    ring

theorem qRound_intCast (n : Int) : qRound (n : ℚ) = n := by
  rw [qRound_eq_floor, Int.floor_eq_iff]
  constructor <;> linarith

theorem qRound_mul_div (n c : Int) (hc : c ≠ 0) : qRound (((n * c : Int) : ℚ) / (c : ℚ)) = n := by
  have hc0 : (c : ℚ) ≠ 0 := by exact_mod_cast hc
  have : ((n * c : Int) : ℚ) / (c : ℚ) = (n : ℚ) := by
    push_cast
    field_simp
  rw [this, qRound_intCast]

theorem QPoint.divReal_mulInt (p : QPoint) (c : Int) (hc : c ≠ 0) :
    (p.mulInt c).divReal (c : ℚ) = p := by
  cases p with
  | mk x y =>
    simp only [QPoint.mulInt, QPoint.divReal]
    rw [qRound_mul_div x c hc, qRound_mul_div y c hc]

theorem zoomCenterPoint_zoomIn (cfg : Config) (s : Widget) (p q : QPoint) :
    zoomCenterPoint (zoomIn cfg s p) q = zoomCenterPoint s q := rfl

theorem zoomCenterPoint_zoomOut (cfg : Config) (s : Widget) (p q : QPoint) :
    zoomCenterPoint (zoomOut cfg s p) q = zoomCenterPoint s q := rfl

theorem zoomIn_zoomFactor (cfg : Config) (s : Widget) (p : QPoint) :
    (zoomIn cfg s p).zoomFactor =
      s.zoomFactor * (cfg.SPLITVIEWWIDGET_ZOOM_STEP_FACTOR : ℚ) := rfl

theorem zoomOut_zoomFactor (cfg : Config) (s : Widget) (p : QPoint) :
    (zoomOut cfg s p).zoomFactor =
      s.zoomFactor / (cfg.SPLITVIEWWIDGET_ZOOM_STEP_FACTOR : ℚ) := rfl

theorem zoomIn_centerOffset_point (cfg : Config) (s : Widget) (p : QPoint)
    (hp : p.isNull = false) :
    (zoomIn cfg s p).centerOffset =
      (p.add ((((zoomCenterPoint s p).add s.centerOffset).sub p).mulInt
        cfg.SPLITVIEWWIDGET_ZOOM_STEP_FACTOR)).sub (zoomCenterPoint s p) := by
  simp [zoomIn, hp]

theorem zoomIn_centerOffset_null (cfg : Config) (s : Widget) (p : QPoint)
    (hp : p.isNull = true) :
    (zoomIn cfg s p).centerOffset =
      s.centerOffset.mulInt cfg.SPLITVIEWWIDGET_ZOOM_STEP_FACTOR := by
  simp [zoomIn, hp]

theorem zoomOut_centerOffset_point (cfg : Config) (s : Widget) (p : QPoint)
    (hp : p.isNull = false) (hM : cfg.SPLITVIEWWIDGET_ZOOM_OUT_MOUSE = 1) :
    (zoomOut cfg s p).centerOffset =
      (p.add ((((zoomCenterPoint s p).add s.centerOffset).sub p).divReal
        (cfg.SPLITVIEWWIDGET_ZOOM_STEP_FACTOR : ℚ))).sub (zoomCenterPoint s p) := by
  simp [zoomOut, hp, hM]

theorem zoomOut_centerOffset_null (cfg : Config) (s : Widget) (p : QPoint)
    (hp : p.isNull = true) :
    (zoomOut cfg s p).centerOffset =
      s.centerOffset.divReal (cfg.SPLITVIEWWIDGET_ZOOM_STEP_FACTOR : ℚ) := by
  simp [zoomOut, hp]

theorem QPoint.add_sub_add_sub (c p d : QPoint) : (c.add ((p.add d).sub c)).sub p = d := by
  cases c; cases p; cases d
  simp only [QPoint.add, QPoint.sub, QPoint.mk.injEq]
  constructor <;> ring

theorem QPoint.add_sub_cancel (c o p : QPoint) : (p.add ((c.add o).sub p)).sub c = o := by
  cases c; cases o; cases p
  simp only [QPoint.add, QPoint.sub, QPoint.mk.injEq]
  constructor <;> ring

theorem paneCentre_eq_zoomCenterPoint (s : Widget) (p : QPoint) :
    paneCentre s p = zoomCenterPoint s p := by
  unfold paneCentre zoomCenterPoint centerPoints mouseInLeftOrRightView
  cases hs : s.splitting <;> cases hm : s.viewMode <;> by_cases hx : p.x > xSplit s <;>
    simp [hx]

theorem paneCentre_zoomIn (cfg : Config) (s : Widget) (p q : QPoint) :
    paneCentre (zoomIn cfg s p) q = paneCentre s q := rfl

theorem paneCentre_zoomOut (cfg : Config) (s : Widget) (p q : QPoint) :
    paneCentre (zoomOut cfg s p) q = paneCentre s q := rfl

theorem itemCoord_eq (s : Widget) (p : QPoint) :
    itemCoord s p =
      (-((anchorDiff s p).x : ℚ) / s.zoomFactor, -((anchorDiff s p).y : ℚ) / s.zoomFactor) := by
  simp only [itemCoord, anchorDiff, QPoint.add, QPoint.sub]
  congr 1 <;> (push_cast; ring)

theorem anchorDiff_zoomIn (cfg : Config) (s : Widget) (p : QPoint) (hp : p.isNull = false) :
    anchorDiff (zoomIn cfg s p) p =
      (anchorDiff s p).mulInt cfg.SPLITVIEWWIDGET_ZOOM_STEP_FACTOR := by
  unfold anchorDiff
  rw [paneCentre_zoomIn, zoomIn_centerOffset_point cfg s p hp, paneCentre_eq_zoomCenterPoint,
    QPoint.add_sub_add_sub]

theorem anchorDiff_zoomOut (cfg : Config) (s : Widget) (p : QPoint)
    (hM : cfg.SPLITVIEWWIDGET_ZOOM_OUT_MOUSE = 1) (hp : p.isNull = false) :
    anchorDiff (zoomOut cfg s p) p =
      (anchorDiff s p).divReal (cfg.SPLITVIEWWIDGET_ZOOM_STEP_FACTOR : ℚ) := by
  unfold anchorDiff
  rw [paneCentre_zoomOut, zoomOut_centerOffset_point cfg s p hp hM,
    paneCentre_eq_zoomCenterPoint, QPoint.add_sub_add_sub]

theorem zoomIn_itemCoord (cfg : Config) (s : Widget) (p : QPoint)
    (hF : cfg.SPLITVIEWWIDGET_ZOOM_STEP_FACTOR ≠ 0) (hp : p.isNull = false) :
    itemCoord (zoomIn cfg s p) p = itemCoord s p := by
  have hF0 : (cfg.SPLITVIEWWIDGET_ZOOM_STEP_FACTOR : ℚ) ≠ 0 := by exact_mod_cast hF
  rw [itemCoord_eq, itemCoord_eq, anchorDiff_zoomIn cfg s p hp, zoomIn_zoomFactor]
  simp only [QPoint.mulInt]
  congr 1 <;> (push_cast; rw [← neg_mul, mul_div_mul_right _ _ hF0])

theorem zoomOut_itemCoord (cfg : Config) (s : Widget) (p : QPoint)
    (hM : cfg.SPLITVIEWWIDGET_ZOOM_OUT_MOUSE = 1) (hp : p.isNull = false) :
    itemCoord (zoomOut cfg s p) p =
      (-(qRound (((anchorDiff s p).x : ℚ) / (cfg.SPLITVIEWWIDGET_ZOOM_STEP_FACTOR : ℚ)) : ℚ) /
          (s.zoomFactor / (cfg.SPLITVIEWWIDGET_ZOOM_STEP_FACTOR : ℚ)),
       -(qRound (((anchorDiff s p).y : ℚ) / (cfg.SPLITVIEWWIDGET_ZOOM_STEP_FACTOR : ℚ)) : ℚ) /
          (s.zoomFactor / (cfg.SPLITVIEWWIDGET_ZOOM_STEP_FACTOR : ℚ))) := by
  rw [itemCoord_eq, anchorDiff_zoomOut cfg s p hM hp, zoomOut_zoomFactor]
  rfl

theorem qRound_div_of_dvd (n c : Int) (hc : c ≠ 0) (h : c ∣ n) :
    ((qRound ((n : ℚ) / (c : ℚ)) : Int) : ℚ) * (c : ℚ) = (n : ℚ) := by
  obtain ⟨k, rfl⟩ := h
  have : ((c * k : Int) : ℚ) / (c : ℚ) = (((k * c : Int)) : ℚ) / (c : ℚ) := by
    rw [mul_comm]
  rw [this, qRound_mul_div k c hc]
  push_cast
  ring

theorem abs_sub_qRound_le (d : ℚ) : |d - (qRound d : ℚ)| ≤ 1 / 2 := by
  rw [qRound_eq_floor, abs_le]
  have h1 := Int.floor_le (d + 1 / 2)
  have h2 := Int.lt_floor_add_one (d + 1 / 2)
  constructor <;> linarith

theorem zoomOut_shift_eq (n r z F : ℚ) (hz : 0 < z) (hF : 0 < F) :
    |(-r / (z / F)) - (-n / z)| * (z / F) = |n / F - r| := by
  have h : (-r / (z / F)) - (-n / z) = (n / F - r) * (F / z) := by
    field_simp
    ring
  rw [h, abs_mul, abs_of_pos (div_pos hF hz), mul_assoc]
  have : F / z * (z / F) = 1 := by
    field_simp
  rw [this, mul_one]

theorem clip_bounds (n lower upper : Int) (h : lower ≤ upper) :
    lower ≤ clip n lower upper ∧ clip n lower upper ≤ upper := by
  unfold clip
  constructor
  · exact le_max_left _ _
  · exact max_le h (min_le_right _ _)

theorem dragSplittingPoint_bounds (cfg : Config) (s : Widget) (x : Int)
    (hw : 2 * cfg.SPLITVIEWWIDGET_SPLITTER_CLIPX ≤ s.width - 2) (hw2 : 2 < s.width) :
    marginFraction cfg s ≤ dragSplittingPoint cfg s x ∧
    dragSplittingPoint cfg s x ≤ 1 - marginFraction cfg s := by
  have hpos : (0 : ℚ) < ((s.width - 2 : Int) : ℚ) := by
    have : (0 : Int) < s.width - 2 := by omega
    exact_mod_cast this
  obtain ⟨h1, h2⟩ := clip_bounds x cfg.SPLITVIEWWIDGET_SPLITTER_CLIPX
    (s.width - 2 - cfg.SPLITVIEWWIDGET_SPLITTER_CLIPX) (by omega)
  have h1q : (cfg.SPLITVIEWWIDGET_SPLITTER_CLIPX : ℚ) ≤
      ((clip x cfg.SPLITVIEWWIDGET_SPLITTER_CLIPX
        (s.width - 2 - cfg.SPLITVIEWWIDGET_SPLITTER_CLIPX) : Int) : ℚ) := by
    exact_mod_cast h1
  have h2q : ((clip x cfg.SPLITVIEWWIDGET_SPLITTER_CLIPX
        (s.width - 2 - cfg.SPLITVIEWWIDGET_SPLITTER_CLIPX) : Int) : ℚ) ≤
      ((s.width - 2 : Int) : ℚ) - (cfg.SPLITVIEWWIDGET_SPLITTER_CLIPX : ℚ) := by
    exact_mod_cast h2
  unfold marginFraction dragSplittingPoint
  constructor
  · exact div_le_div_of_nonneg_right h1q (le_of_lt hpos)
  · rw [div_le_iff₀ hpos, sub_mul, one_mul, div_mul_cancel₀ _ (ne_of_gt hpos)]
    exact h2q

theorem mouseMoveEvent_splittingPoint_drag (cfg : Config) (s : Widget) (e : QMouseEvent)
    (hs : s.splitting = true) (hd : s.splittingDragging = true)
    (hb : e.button = MouseButton.NoButton) :
    (mouseMoveEvent cfg s e).splittingPoint = dragSplittingPoint cfg s e.pos.x := by
  unfold mouseMoveEvent
  simp only [hb, hs, hd, Bool.and_self, if_true]
  split
  · split <;> rfl
  · rfl

theorem mouseReleaseEvent_drag (cfg : Config) (s : Widget) (e : QMouseEvent)
    (hs : s.splitting = true) (hd : s.splittingDragging = true)
    (hb : e.button = MouseButton.LeftButton) :
    (mouseReleaseEvent cfg s e).splittingPoint = dragSplittingPoint cfg s e.pos.x ∧
    (mouseReleaseEvent cfg s e).splittingDragging = false := by
  unfold mouseReleaseEvent
  simp [hb, hs, hd]

theorem mouseMoveEvent_splittingDragging (cfg : Config) (s : Widget) (e : QMouseEvent)
    (hs : s.splitting = true) (hd : s.splittingDragging = true) :
    (mouseMoveEvent cfg s e).splittingDragging = true := by
  unfold mouseMoveEvent
  simp only [hs, hd, Bool.and_self, if_true]
  split <;> split <;> (try split) <;> simp [hd]

theorem viewInfo_pixelPosInItem_iff (s : Widget) (diff : ℚ × ℚ) (item : PlaylistItem) :
    (viewInfo s diff item).pixelPosInItem = true ↔
      (0 ≤ (viewInfo s diff item).pixelPos.x ∧
        (viewInfo s diff item).pixelPos.x < item.videoWidth) ∧
      (0 ≤ (viewInfo s diff item).pixelPos.y ∧
        (viewInfo s diff item).pixelPos.y < item.videoHeight) := by
  simp only [viewInfo, Bool.and_eq_true, decide_eq_true_eq, ge_iff_le, Int.cast_lt]

/-- What the code computes per coordinate: below zero it is one less than the ceiling of the
value, otherwise the floor of the value. -/
theorem pixelCoord_eq (d : ℚ) (itemSize : Int) :
    pixelCoord d itemSize =
      if -d + (itemSize : ℚ) / 2 + 1 / 2 < 0 then ⌈-d + (itemSize : ℚ) / 2 + 1 / 2⌉ - 1
      else ⌊-d + (itemSize : ℚ) / 2 + 1 / 2⌋ := by
  unfold pixelCoord
  simp only
  split
  · rename_i h
    unfold toInt
    rw [if_neg (by linarith)]
    have : -(-d + (itemSize : ℚ) / 2 + 1 / 2 - 1) = -(-d + (itemSize : ℚ) / 2 + 1 / 2) + 1 := by
      ring
    rw [this, Int.floor_add_one, Int.floor_neg]
    ring
  · rename_i h
    push_neg at h
    exact toInt_of_nonneg h

/-- The value the code floors is the one the specification names. -/
theorem pixelCoord_value (centre cursor : Int) (zoomFactor : ℚ) (itemSize : Int) :
    -(diffInItem centre cursor zoomFactor) + (itemSize : ℚ) / 2 + 1 / 2 =
      ((cursor - centre : Int) : ℚ) / zoomFactor + (itemSize : ℚ) / 2 := by
  unfold diffInItem
  push_cast
  ring

theorem ceil_sub_one_eq_floor (v : ℚ) (h : ((⌊v⌋ : Int) : ℚ) ≠ v) : ⌈v⌉ - 1 = ⌊v⌋ := by
  have hlt : ((⌊v⌋ : Int) : ℚ) < v := lt_of_le_of_ne (Int.floor_le v) h
  have hc : ⌈v⌉ = ⌊v⌋ + 1 := by
    rw [Int.ceil_eq_iff]
    constructor
    · push_cast
      linarith
    · have := Int.lt_floor_add_one v
      push_cast
      linarith
  rw [hc]
  ring

/-- Away from negative integers the code agrees with the specified floor. -/
theorem pixelCoord_eq_spec_of_nonneg_or_fract (centre cursor : Int) (zoomFactor : ℚ)
    (itemSize : Int)
    (h : 0 ≤ ((cursor - centre : Int) : ℚ) / zoomFactor + (itemSize : ℚ) / 2 ∨
      ((⌊((cursor - centre : Int) : ℚ) / zoomFactor + (itemSize : ℚ) / 2⌋ : Int) : ℚ) ≠
        ((cursor - centre : Int) : ℚ) / zoomFactor + (itemSize : ℚ) / 2) :
    pixelCoord (diffInItem centre cursor zoomFactor) itemSize =
      specPixelCoord cursor centre zoomFactor itemSize := by
  rw [pixelCoord_eq, pixelCoord_value]
  unfold specPixelCoord
  split
  · rename_i hneg
    rcases h with h | h
    · linarith
    · exact ceil_sub_one_eq_floor _ h
  · rfl

theorem mouseMoveEvent_zoomFactor (cfg : Config) (s : Widget) (e : QMouseEvent) :
    (mouseMoveEvent cfg s e).zoomFactor = s.zoomFactor := by
  unfold mouseMoveEvent
  simp only
  repeat' split
  all_goals rfl

theorem mousePressEvent_zoomFactor (cfg : Config) (s : Widget) (e : QMouseEvent) :
    (mousePressEvent cfg s e).zoomFactor = s.zoomFactor := by
  unfold mousePressEvent
  repeat' split
  all_goals rfl

theorem mouseReleaseEvent_zoomFactor (cfg : Config) (s : Widget) (e : QMouseEvent) :
    (mouseReleaseEvent cfg s e).zoomFactor = s.zoomFactor := by
  unfold mouseReleaseEvent
  repeat' split
  all_goals rfl

theorem setSplitEnabled_zoomFactor (s : Widget) (flag : Bool) :
    (setSplitEnabled s flag).zoomFactor = s.zoomFactor := by
  unfold setSplitEnabled
  split <;> rfl

theorem step_zoomFactor_pos (cfg : Config) (hF : 0 < cfg.SPLITVIEWWIDGET_ZOOM_STEP_FACTOR)
    (s : Widget) (op : Op) (hz : 0 < s.zoomFactor) : 0 < (step cfg s op).zoomFactor := by
  have hFq : (0 : ℚ) < (cfg.SPLITVIEWWIDGET_ZOOM_STEP_FACTOR : ℚ) := by exact_mod_cast hF
  cases op with
  | zoomIn p => exact mul_pos hz hFq
  | zoomOut p => exact div_pos hz hFq
  | wheelEvent p delta =>
    simp only [step, wheelEvent]
    split
    · exact mul_pos hz hFq
    · exact div_pos hz hFq
  | resetViews => exact one_pos
  | mouseMoveEvent e => simp only [step]; rw [mouseMoveEvent_zoomFactor]; exact hz
  | mousePressEvent e => simp only [step]; rw [mousePressEvent_zoomFactor]; exact hz
  | mouseReleaseEvent e => simp only [step]; rw [mouseReleaseEvent_zoomFactor]; exact hz
  | setSplitEnabled flag => simp only [step]; rw [setSplitEnabled_zoomFactor]; exact hz
  | setViewMode m => exact hz
  | setRegularGridEnabled flag => exact hz
  | setRegularGridSize size => exact hz
  | setZoomBoxEnabled flag => exact hz

theorem run_zoomFactor_pos (cfg : Config) (hF : 0 < cfg.SPLITVIEWWIDGET_ZOOM_STEP_FACTOR)
    (ops : List Op) : ∀ s : Widget, 0 < s.zoomFactor → 0 < (run cfg s ops).zoomFactor := by
  induction ops with
  | nil => intro s hz; exact hz
  | cons op rest ih =>
    intro s hz
    exact ih (step cfg s op) (step_zoomFactor_pos cfg hF s op hz)

theorem paintRegularGrid_eq_none (s : Widget) (item : PlaylistItem)
    (h0 : toInt ((s.regularGridSize : ℚ) * s.zoomFactor) = 0) :
    paintRegularGrid s item = none := by
  unfold paintRegularGrid
  simp only [h0, if_true]

theorem paintItem_eq_none_of_grid_zero (s : Widget) (view : Nat) (c : QPoint)
    (item : PlaylistItem) (frame : Int) (info : ViewInfo) (clipRegion : Option QRect)
    (hg : s.drawRegularGrid = true)
    (h0 : toInt ((s.regularGridSize : ℚ) * s.zoomFactor) = 0) :
    paintItem s view c item frame info clipRegion = none := by
  unfold paintItem
  rw [hg, if_pos rfl, paintRegularGrid_eq_none s item h0]

/-- With the first item selected and the grid enabled, a zero grid spacing makes the paint
fail, in split mode or not, with the zoom box or without. -/
theorem paintEvent_eq_none_of_grid_zero (s : Widget) (it0 : PlaylistItem)
    (item1 : Option PlaylistItem) (frame : Int)
    (hpl : s.playlist = some (some it0, item1)) (hpb : s.playback = some frame)
    (hg : s.drawRegularGrid = true)
    (h0 : toInt ((s.regularGridSize : ℚ) * s.zoomFactor) = 0) :
    paintEvent s = none := by
  unfold paintEvent
  rw [hpl, hpb]
  simp only
  cases hi : zoomBoxInfos s (some it0) item1 with
  | none => rfl
  | some infos =>
    simp only
    have hitems : paintItems s (some it0) item1 frame infos = none := by
      unfold paintItems
      cases hs : s.splitting
      · simp only [Bool.false_eq_true, if_false]
        exact paintItem_eq_none_of_grid_zero _ _ _ _ _ _ _ hg h0
      · simp only [if_true]
        rw [paintItem_eq_none_of_grid_zero _ _ _ _ _ _ _ hg h0]
        rfl
    rw [hitems]

theorem paintEvent_of_no_playlist (s : Widget) (h : s.playlist = none) :
    paintEvent s = some [] := by
  unfold paintEvent
  rw [h]

theorem paintEvent_of_no_playback (s : Widget)
    (sel : Option PlaylistItem × Option PlaylistItem)
    (hpl : s.playlist = some sel) (hpb : s.playback = none) :
    paintEvent s = none := by
  unfold paintEvent
  rw [hpl, hpb]

theorem zoomBoxInfos_no_selection (s : Widget) :
    zoomBoxInfos s none none = some (ViewInfo.initial, ViewInfo.initial) := by
  simp [zoomBoxInfos, zoomBoxActive]

theorem paintItems_no_selection (s : Widget) (frame : Int) (infos : ViewInfo × ViewInfo) :
    paintItems s none none frame infos =
      some (if s.splitting = true then [PaintOp.setClipping false] else []) := by
  unfold paintItems
  cases s.splitting <;> simp

theorem zoomOut_regularGridSize (cfg : Config) (s : Widget) (p : QPoint) :
    (zoomOut cfg s p).regularGridSize = s.regularGridSize := rfl

theorem zoomOut_drawRegularGrid (cfg : Config) (s : Widget) (p : QPoint) :
    (zoomOut cfg s p).drawRegularGrid = s.drawRegularGrid := rfl

/-- For every step factor of at least 2, seven zoom out steps on a fresh widget with the grid
switched on bring the integer grid spacing to 0. -/
theorem gridZoom_zero_after_seven_zoomOut (cfg : Config) (gx gy w h : Int)
    (style : SplittingLineStyle) (p : QPoint)
    (hF : 2 ≤ cfg.SPLITVIEWWIDGET_ZOOM_STEP_FACTOR) :
    (run cfg (construct gx gy w h style)
      (Op.setRegularGridEnabled true :: List.replicate 7 (Op.zoomOut p))).drawRegularGrid
        = true ∧
    toInt (((run cfg (construct gx gy w h style)
      (Op.setRegularGridEnabled true :: List.replicate 7 (Op.zoomOut p))).regularGridSize : ℚ) *
      (run cfg (construct gx gy w h style)
        (Op.setRegularGridEnabled true :: List.replicate 7 (Op.zoomOut p))).zoomFactor) = 0 := by
  have hFq : (2 : ℚ) ≤ (cfg.SPLITVIEWWIDGET_ZOOM_STEP_FACTOR : ℚ) := by exact_mod_cast hF
  have hpos : (0 : ℚ) < (cfg.SPLITVIEWWIDGET_ZOOM_STEP_FACTOR : ℚ) := by linarith
  simp only [run, List.replicate, List.foldl, step, zoomOut_drawRegularGrid,
    zoomOut_regularGridSize, zoomOut_zoomFactor]
  refine ⟨rfl, ?_⟩
  simp only [setRegularGridEnabled, construct]
  have hz : (1 : ℚ) / (cfg.SPLITVIEWWIDGET_ZOOM_STEP_FACTOR : ℚ) /
      (cfg.SPLITVIEWWIDGET_ZOOM_STEP_FACTOR : ℚ) / (cfg.SPLITVIEWWIDGET_ZOOM_STEP_FACTOR : ℚ) /
      (cfg.SPLITVIEWWIDGET_ZOOM_STEP_FACTOR : ℚ) / (cfg.SPLITVIEWWIDGET_ZOOM_STEP_FACTOR : ℚ) /
      (cfg.SPLITVIEWWIDGET_ZOOM_STEP_FACTOR : ℚ) / (cfg.SPLITVIEWWIDGET_ZOOM_STEP_FACTOR : ℚ) =
      1 / (cfg.SPLITVIEWWIDGET_ZOOM_STEP_FACTOR : ℚ) ^ 7 := by
    field_simp
    ring
  rw [hz]
  have hpow : (128 : ℚ) ≤ (cfg.SPLITVIEWWIDGET_ZOOM_STEP_FACTOR : ℚ) ^ 7 := by
    calc (128 : ℚ) = 2 ^ 7 := by norm_num
      _ ≤ (cfg.SPLITVIEWWIDGET_ZOOM_STEP_FACTOR : ℚ) ^ 7 :=
        pow_le_pow_left₀ (by norm_num) hFq 7
  have hp7 : (0 : ℚ) < (cfg.SPLITVIEWWIDGET_ZOOM_STEP_FACTOR : ℚ) ^ 7 := by linarith
  have h0 : (0 : ℚ) ≤ ((64 : Int) : ℚ) * (1 / (cfg.SPLITVIEWWIDGET_ZOOM_STEP_FACTOR : ℚ) ^ 7) := by
    positivity
  rw [toInt_of_nonneg h0, Int.floor_eq_zero_iff]
  refine ⟨h0, ?_⟩
  rw [mul_one_div, div_lt_one hp7]
  push_cast
  linarith

theorem getPixelValues_ne_restoreClip (c : Option QRect) (v : Nat) (pos : QPoint) :
    PaintOp.getPixelValues v pos ≠
      (match c with
        | none => PaintOp.setClipping false
        | some r => if r.isEmpty then PaintOp.setClipping false else PaintOp.setClipRegion r) := by
  cases c with
  | none => simp
  | some r => by_cases hr : r.isEmpty = true <;> simp [hr]

theorem getPixelValues_mem_paintZoomBox (s : Widget) (view : Nat) (xs : Int) (botR : QPoint)
    (tr : ℚ × ℚ) (frame : Int) (pp : QPoint) (flag : Bool) (clipRegion : Option QRect)
    (v : Nat) (pos : QPoint)
    (h : PaintOp.getPixelValues v pos ∈
      paintZoomBox s view xs botR tr frame pp flag clipRegion) :
    v = view ∧ pos = pp ∧ flag = true := by
  have hr := getPixelValues_ne_restoreClip clipRegion v pos
  simp only [paintZoomBox] at h
  split_ifs at h <;>
    simp only [List.mem_append, List.mem_cons, List.mem_singleton, reduceCtorEq, false_or,
      List.not_mem_nil, or_false, hr, PaintOp.getPixelValues.injEq] at h
  all_goals exact ⟨h.1, h.2, by assumption⟩

theorem getPixelValues_not_mem_paintRegularGrid (s : Widget) (item : PlaylistItem)
    (grid : List PaintOp) (h : paintRegularGrid s item = some grid) (v : Nat) (pos : QPoint) :
    PaintOp.getPixelValues v pos ∉ grid := by
  unfold paintRegularGrid at h
  simp only at h
  split at h
  · simp at h
  · simp only [Option.some.injEq] at h
    subst h
    simp

theorem getPixelValues_mem_paintItem (s : Widget) (view : Nat) (c : QPoint)
    (item : PlaylistItem) (frame : Int) (info : ViewInfo) (clipRegion : Option QRect)
    (ops : List PaintOp) (h : paintItem s view c item frame info clipRegion = some ops)
    (v : Nat) (pos : QPoint) (hm : PaintOp.getPixelValues v pos ∈ ops) :
    v = view ∧ pos = info.pixelPos ∧ info.pixelPosInItem = true := by
  unfold paintItem at h
  split at h
  · simp at h
  · rename_i grid hgrid
    simp only [Option.some.injEq] at h
    subst h
    have hng : PaintOp.getPixelValues v pos ∉ grid := by
      by_cases hd : s.drawRegularGrid = true
      · rw [if_pos hd] at hgrid
        exact getPixelValues_not_mem_paintRegularGrid s item grid hgrid v pos
      · rw [if_neg hd] at hgrid
        simp only [Option.some.injEq] at hgrid
        subst hgrid
        simp
    simp only [List.mem_append, List.mem_cons, List.mem_singleton, reduceCtorEq, false_or,
      List.not_mem_nil, or_false] at hm
    rcases hm with (hm | hm) | hm
    · exact absurd hm hng
    · split at hm <;> simp at hm
    · exact getPixelValues_mem_paintZoomBox _ _ _ _ _ _ _ _ _ _ _ hm

theorem getPixelValues_mem_paintItems (s : Widget) (item0 item1 : Option PlaylistItem)
    (frame : Int) (infos : ViewInfo × ViewInfo) (ops : List PaintOp)
    (h : paintItems s item0 item1 frame infos = some ops)
    (v : Nat) (pos : QPoint) (hm : PaintOp.getPixelValues v pos ∈ ops) :
    (v = 0 ∧ item0.isSome = true ∧ pos = infos.1.pixelPos ∧ infos.1.pixelPosInItem = true) ∨
    (v = 1 ∧ s.splitting = true ∧ item1.isSome = true ∧ pos = infos.2.pixelPos ∧
      infos.2.pixelPosInItem = true) := by
  unfold paintItems at h
  by_cases hs : s.splitting = true
  · simp only [hs, if_true] at h
    split at h
    · rename_i l r hl hr
      simp only [Option.some.injEq] at h
      subst h
      simp only [List.mem_append, List.mem_singleton, reduceCtorEq, or_false] at hm
      rcases hm with hm | hm
      · left
        cases item0 with
        | none =>
          simp only [Option.some.injEq] at hl
          subst hl
          simp at hm
        | some it0 =>
          simp only [Option.map_eq_some'] at hl
          obtain ⟨ops0, h0, rfl⟩ := hl
          simp only [List.mem_cons, reduceCtorEq, false_or] at hm
          obtain ⟨h1, h2, h3⟩ := getPixelValues_mem_paintItem _ _ _ _ _ _ _ _ h0 v pos hm
          exact ⟨h1, rfl, h2, h3⟩
      · right
        cases item1 with
        | none =>
          simp only [Option.some.injEq] at hr
          subst hr
          simp at hm
        | some it1 =>
          simp only [Option.map_eq_some'] at hr
          obtain ⟨ops1, h1, rfl⟩ := hr
          simp only [List.mem_cons, reduceCtorEq, false_or] at hm
          obtain ⟨h2, h3, h4⟩ := getPixelValues_mem_paintItem _ _ _ _ _ _ _ _ h1 v pos hm
          exact ⟨h2, hs, rfl, h3, h4⟩
    · simp at h
  · simp only [hs, Bool.false_eq_true, if_false] at h
    left
    cases item0 with
    | none =>
      simp only [Option.some.injEq] at h
      subst h
      simp at hm
    | some it0 =>
      simp only at h
      obtain ⟨h1, h2, h3⟩ := getPixelValues_mem_paintItem _ _ _ _ _ _ _ _ h v pos hm
      exact ⟨h1, rfl, h2, h3⟩

theorem zoomBoxInfos_flags (s : Widget) (item0 item1 : Option PlaylistItem)
    (infos : ViewInfo × ViewInfo) (h : zoomBoxInfos s item0 item1 = some infos) :
    (infos.1.pixelPosInItem = true → ∃ it0, item0 = some it0 ∧
      (0 ≤ infos.1.pixelPos.x ∧ infos.1.pixelPos.x < it0.videoWidth) ∧
      (0 ≤ infos.1.pixelPos.y ∧ infos.1.pixelPos.y < it0.videoHeight)) ∧
    (infos.2.pixelPosInItem = true → ∃ it1, item1 = some it1 ∧
      (0 ≤ infos.2.pixelPos.x ∧ infos.2.pixelPos.x < it1.videoWidth) ∧
      (0 ≤ infos.2.pixelPos.y ∧ infos.2.pixelPos.y < it1.videoHeight)) := by
  unfold zoomBoxInfos at h
  by_cases ha : zoomBoxActive s item0 item1 = true
  · rw [if_pos ha] at h
    cases item0 with
    | none => simp at h
    | some it0 =>
      by_cases hv : viewNum s item1 = 2
      · cases item1 with
        | none => simp [hv] at h
        | some it1 =>
          simp only [hv, if_true, Option.some.injEq] at h
          subst h
          exact ⟨fun hf => ⟨it0, rfl, (viewInfo_pixelPosInItem_iff _ _ _).mp hf⟩,
            fun hf => ⟨it1, rfl, (viewInfo_pixelPosInItem_iff _ _ _).mp hf⟩⟩
      · simp only [hv, if_false, Option.some.injEq] at h
        subst h
        exact ⟨fun hf => ⟨it0, rfl, (viewInfo_pixelPosInItem_iff _ _ _).mp hf⟩,
          fun hf => by simp [ViewInfo.initial] at hf⟩
  · rw [if_neg ha] at h
    simp only [Option.some.injEq] at h
    subst h
    exact ⟨fun hf => by simp [ViewInfo.initial] at hf,
      fun hf => by simp [ViewInfo.initial] at hf⟩

theorem paintEvent_inspectWidget :
    paintEvent inspectWidget =
      some [PaintOp.translate 200 150,
        PaintOp.drawFrame 0 0 1,
        PaintOp.drawRect ⟨0, 0, 0, 0⟩,
        PaintOp.resetTransform,
        PaintOp.fillRect ⟨230, 130, 389, 289⟩,
        PaintOp.setClipRegion ⟨230, 130, 389, 289⟩,
        PaintOp.translate 309 209,
        PaintOp.translate (-16) (-16),
        PaintOp.drawFrame 0 0 32,
        PaintOp.resetTransform,
        PaintOp.setClipping false,
        PaintOp.drawRect ⟨230, 130, 389, 289⟩,
        PaintOp.getPixelValues 0 ⟨2, 2⟩,
        PaintOp.drawInfoPanel 0 229 289 ⟨2, 2⟩ true,
        PaintOp.resetTransform] := by
  have ha : zoomBoxActive inspectWidget (some ⟨4, 4⟩) none = true := by decide
  have hi : zoomBoxInfos inspectWidget (some ⟨4, 4⟩) none =
      some (⟨⟨2, 2⟩, true, ⟨0, 0, 0, 0⟩, (-1 / 2, -1 / 2)⟩, ViewInfo.initial) := by
    unfold zoomBoxInfos
    rw [if_pos ha]
    norm_num [inspectWidget, construct, viewNum, viewInfo, pixelCoord_eq,
      diffInItem, paneCentre, centerPoints, mouseInLeftOrRightView, QPoint.add,
      QPoint.divReal, qRound_eq_floor, QRect.mk4, toInt]
  have t1 : Int.tdiv 160 2 = 80 := by decide
  have t2 : Int.tdiv 619 2 = 309 := by decide
  have t3 : Int.tdiv 419 2 = 209 := by decide
  unfold paintEvent
  simp only [show inspectWidget.playlist = some (some ⟨4, 4⟩, none) from rfl,
    show inspectWidget.playback = some 0 from rfl, hi]
  norm_num [paintItems, paintItem, paintZoomBox, paintSplitter, paintZoomFactor, inspectWidget,
    construct, QPoint.divReal, qRound_eq_floor, QPoint.add, QPoint.sub, QRect.mk4,
    QRect.moveBottomRight, QRect.center, QRect.setWidth, xSplit, toInt, t1, t2, t3]

theorem cursorOutsideWidget_eq :
    cursorOutsideWidget =
      { construct 0 0 400 300 SplittingLineStyle.SOLID_LINE with
        playlist := some (some ⟨4, 4⟩, none)
        playback := some 0
        drawZoomBox := true
        zoomBoxMousePosition := ⟨450, 150⟩ } := by
  norm_num [cursorOutsideWidget, run, step, setZoomBoxEnabled, mousePressEvent, mouseMoveEvent,
    construct]

theorem mousePressEvent_right (cfg : Config) (s : Widget) (p0 : QPoint) :
    mousePressEvent cfg s ⟨MouseButton.RightButton, p0⟩ =
      { s with
        viewDragging := true
        cursor := CursorShape.ArrowCursor
        viewDraggingMousePosStart := p0
        viewDraggingStartOffset := s.centerOffset } := by
  simp [mousePressEvent]

theorem mouseMoveEvent_viewDrag (cfg : Config) (st : Widget) (p p0 o0 : QPoint) (z sp : ℚ)
    (h : ViewDragInv p0 o0 z sp st) :
    ViewDragInv p0 o0 z sp (mouseMoveEvent cfg st ⟨MouseButton.NoButton, p⟩) ∧
    (mouseMoveEvent cfg st ⟨MouseButton.NoButton, p⟩).centerOffset = o0.add (p.sub p0) := by
  obtain ⟨hv, ho, hp, hns, hz, hsp⟩ := h
  have hns2 : (st.splitting && st.splittingDragging) = false := by
    cases h1 : st.splitting <;> cases h2 : st.splittingDragging <;> simp_all
  unfold mouseMoveEvent ViewDragInv
  simp only [if_true, hns2, Bool.false_eq_true, if_false, hv]
  split
  · split
    · exact ⟨⟨rfl, ho, hp, hns, hz, hsp⟩, by rw [ho, hp]⟩
    · exact ⟨⟨rfl, ho, hp, hns, hz, hsp⟩, by rw [ho, hp]⟩
  · exact ⟨⟨rfl, ho, hp, hns, hz, hsp⟩, by rw [ho, hp]⟩

theorem dragMoves_inv (cfg : Config) (p0 o0 : QPoint) (z sp : ℚ) (moves : List QPoint) :
    ∀ st : Widget, ViewDragInv p0 o0 z sp st → ViewDragInv p0 o0 z sp (dragMoves cfg st moves) := by
  induction moves with
  | nil => intro st h; exact h
  | cons p rest ih =>
    intro st h
    exact ih _ (mouseMoveEvent_viewDrag cfg st p p0 o0 z sp h).1

theorem dragMoves_snoc (cfg : Config) (st : Widget) (moves : List QPoint) (p : QPoint) :
    dragMoves cfg st (moves ++ [p]) =
      mouseMoveEvent cfg (dragMoves cfg st moves) ⟨MouseButton.NoButton, p⟩ := by
  simp [dragMoves, List.foldl_append]

theorem mouseReleaseEvent_viewDrag (cfg : Config) (st : Widget) (p1 p0 o0 : QPoint) (z sp : ℚ)
    (h : ViewDragInv p0 o0 z sp st) :
    (mouseReleaseEvent cfg st ⟨MouseButton.RightButton, p1⟩).centerOffset =
        o0.add (p1.sub p0) ∧
    (mouseReleaseEvent cfg st ⟨MouseButton.RightButton, p1⟩).viewDragging = false ∧
    (mouseReleaseEvent cfg st ⟨MouseButton.RightButton, p1⟩).zoomFactor = z ∧
    (mouseReleaseEvent cfg st ⟨MouseButton.RightButton, p1⟩).splittingPoint = sp := by
  obtain ⟨hv, ho, hp, -, hz, hsp⟩ := h
  simp [mouseReleaseEvent, hv, ho, hp, hz, hsp]

theorem isInfoPanel_restoreClip (c : Option QRect) :
    (match c with
      | none => PaintOp.setClipping false
      | some r => if r.isEmpty then PaintOp.setClipping false
        else PaintOp.setClipRegion r).isInfoPanel = false := by
  cases c with
  | none => rfl
  | some r => by_cases hr : r.isEmpty = true <;> simp [hr, PaintOp.isInfoPanel]

theorem insetRect_pane1_x1 (splitting : Bool) (xs : Int) (botR : QPoint) :
    (insetRect splitting 1 xs botR).x1 = botR.x - 170 := by
  simp [insetRect, QRect.mk4, QRect.moveBottomRight, QPoint.sub]
  ring

namespace FileInfoGroupBox

theorem updateLabels_spec (nr : Int) (l : List InfoItem) :
    ∀ (n i : Nat) (labels : List String), nr * 2 = (labels.length : Int) →
      labels.length = 2 * l.length → i + n = l.length →
      ∃ labels2, updateLabels nr l n i labels = some labels2 ∧
        labels2.length = labels.length ∧
        (∀ k, k < 2 * i → labels2[k]? = labels[k]?) ∧
        (∀ j info, i ≤ j → l[j]? = some info →
          labels2[2 * j]? = some info.1 ∧ labels2[2 * j + 1]? = some info.2) := by
  intro n
  induction n with
  | zero =>
    intro i labels _ _ hi
    refine ⟨labels, rfl, rfl, fun _ _ => rfl, ?_⟩
    intro j info hij hj
    have hlt : j < l.length := (List.getElem?_eq_some_iff.mp hj).1
    omega
  | succ n ih =>
    intro i labels hnr hlen hi
    have hil : i < l.length := by omega
    have hget : l[i]? = some l[i] := List.getElem?_eq_getElem hil
    have hidx : i * 2 + 1 < labels.length := by omega
    obtain ⟨labels2, hres, hlen2, hlow, hhigh⟩ :=
      ih (i + 1) ((labels.set (i * 2) l[i].1).set (i * 2 + 1) l[i].2)
        (by simpa using hnr) (by simpa using hlen) (by omega)
    refine ⟨labels2, ?_, ?_, ?_, ?_⟩
    · simp only [updateLabels, hnr, if_true, hget, hidx]
      exact hres
    · simpa using hlen2
    · intro k hk
      rw [hlow k (by omega), List.getElem?_set, List.getElem?_set]
      rw [if_neg (by omega), if_neg (by omega)]
    · intro j info hij hj
      by_cases hji : j = i
      · subst hji
        rw [hget] at hj
        simp only [Option.some.injEq] at hj
        subst hj
        rw [hlow (2 * j) (by omega), hlow (2 * j + 1) (by omega)]
        simp only [List.getElem?_set, List.length_set]
        constructor
        · rw [if_neg (by omega), if_pos (by omega), if_pos (by omega)]
        · rw [if_pos (by omega), if_pos (by omega)]
      · exact hhigh j info (by omega) hj

theorem newLabels_snoc (l : List InfoItem) (x : InfoItem) :
    newLabels (l ++ [x]) = newLabels l ++ [x.1, x.2] := by
  simp [newLabels, List.foldl_append]

theorem newLabels_spec (l : List InfoItem) :
    (newLabels l).length = 2 * l.length ∧
    ∀ i info, l[i]? = some info →
      (newLabels l)[2 * i]? = some info.1 ∧ (newLabels l)[2 * i + 1]? = some info.2 := by
  induction l using List.reverseRecOn with
  | nil => simp [newLabels]
  | append_singleton l x ih =>
    obtain ⟨hlen, hidx⟩ := ih
    rw [newLabels_snoc]
    constructor
    · simp [hlen]
      omega
    · intro i info hi
      by_cases hil : i < l.length
      · rw [List.getElem?_append_left hil] at hi
        obtain ⟨h1, h2⟩ := hidx i info hi
        rw [List.getElem?_append_left (by omega), List.getElem?_append_left (by omega)]
        exact ⟨h1, h2⟩
      · have hlt : i < (l ++ [x]).length := (List.getElem?_eq_some_iff.mp hi).1
        have hie : i = l.length := by
          simp at hlt
          omega
        subst hie
        rw [List.getElem?_append_right (le_refl _)] at hi
        simp at hi
        subst hi
        rw [List.getElem?_append_right (by omega), List.getElem?_append_right (by omega)]
        simp [hlen]

/-- In a state that satisfies the predicate of the assertion, `setFileInfo(title, list)`
completes, shows the title and the list as specified, and keeps the predicate. -/
theorem setFileInfoList_of_labelsMatchPairs (b : FileInfoGroupBox) (t : String)
    (l : List InfoItem) (hb : labelsMatchPairs b = true) :
    ∃ b2, setFileInfoList b t l = some b2 ∧ showsFileInfo b2 t l ∧
      labelsMatchPairs b2 = true := by
  simp only [labelsMatchPairs, decide_eq_true_eq] at hb
  unfold setFileInfoList
  by_cases hc : (l.length : Int) = b.p_nrLabelPairs
  · rw [if_pos hc]
    have hlen : b.p_labelList.length = 2 * l.length := by omega
    have hn : 0 + b.p_nrLabelPairs.toNat = l.length := by omega
    obtain ⟨labels2, hres, hlen2, -, hhigh⟩ :=
      updateLabels_spec b.p_nrLabelPairs l b.p_nrLabelPairs.toNat 0 b.p_labelList
        (by omega) hlen hn
    rw [hres]
    refine ⟨_, rfl, ⟨rfl, by simp only; omega, ?_⟩, ?_⟩
    · intro i info hi
      exact hhigh i info (Nat.zero_le _) hi
    · simp only [labelsMatchPairs, decide_eq_true_eq]
      omega
  · rw [if_neg hc]
    obtain ⟨hlen, hidx⟩ := newLabels_spec l
    refine ⟨_, rfl, ⟨rfl, hlen, hidx⟩, ?_⟩
    simp only [labelsMatchPairs, decide_eq_true_eq, hlen]
    omega

end FileInfoGroupBox

/-! ## The claims -/

/-- C1: for every widget state and every zoom point `p` (null or not), `zoomIn p` followed by
`zoomOut p` leaves `zoomFactor` and `centerOffset` as they were before the two calls. The step
factor is a non-zero integer, and zoom out is configured to anchor at the mouse
(`SPLITVIEWWIDGET_ZOOM_OUT_MOUSE == 1`) when `p` is not null. -/
theorem zoomIn_zoomOut_restores (cfg : Config) (s : Widget) (p : QPoint)
    (hF : cfg.SPLITVIEWWIDGET_ZOOM_STEP_FACTOR ≠ 0)
    (hM : p.isNull = false → cfg.SPLITVIEWWIDGET_ZOOM_OUT_MOUSE = 1) :
    (zoomOut cfg (zoomIn cfg s p) p).zoomFactor = s.zoomFactor ∧
    (zoomOut cfg (zoomIn cfg s p) p).centerOffset = s.centerOffset := by
  have hF0 : (cfg.SPLITVIEWWIDGET_ZOOM_STEP_FACTOR : ℚ) ≠ 0 := by exact_mod_cast hF
  constructor
  · rw [zoomOut_zoomFactor, zoomIn_zoomFactor]
    field_simp
  · cases hp : p.isNull
    · rw [zoomOut_centerOffset_point cfg _ p hp (hM hp), zoomCenterPoint_zoomIn,
        zoomIn_centerOffset_point cfg s p hp]
      rw [QPoint.add_sub_add_sub, QPoint.divReal_mulInt _ _ hF, QPoint.add_sub_cancel]
    · rw [zoomOut_centerOffset_null cfg _ p hp, zoomIn_centerOffset_null cfg s p hp]
      exact QPoint.divReal_mulInt _ _ hF

/-- Witness of `zoomIn_zoomOut_restores`: the sample widget zoomed at the point (30, 40). -/
theorem zoomIn_zoomOut_restores_witness :
    (sampleConfig.SPLITVIEWWIDGET_ZOOM_STEP_FACTOR ≠ 0 ∧
      sampleConfig.SPLITVIEWWIDGET_ZOOM_OUT_MOUSE = 1) ∧
    (zoomOut sampleConfig (zoomIn sampleConfig sampleWidget ⟨30, 40⟩) ⟨30, 40⟩).zoomFactor =
      sampleWidget.zoomFactor ∧
    (zoomOut sampleConfig (zoomIn sampleConfig sampleWidget ⟨30, 40⟩) ⟨30, 40⟩).centerOffset =
      sampleWidget.centerOffset :=
  ⟨⟨by decide, rfl⟩,
    zoomIn_zoomOut_restores sampleConfig sampleWidget ⟨30, 40⟩ (by decide) (fun _ => rfl)⟩

/-- C2 fails for zoom out: with step factor 2, zooming out of the fresh 100 x 100 widget at
the cursor (49, 50) moves the item-local coordinate under the cursor from (-1, 0) to (-2, 0),
because the halved distance to the centre is rounded to a whole pixel. -/
theorem zoomOut_moves_item_coordinate :
    ¬ (itemCoord (zoomOut sampleConfig sampleWidget ⟨49, 50⟩) ⟨49, 50⟩ =
        itemCoord sampleWidget ⟨49, 50⟩) := by
  have h1 : itemCoord sampleWidget ⟨49, 50⟩ = (-1, 0) := by
    norm_num [itemCoord, sampleWidget, construct, paneCentre, centerPoints,
      mouseInLeftOrRightView, QPoint.add, QPoint.divReal, qRound_eq_floor]
  have h2 : itemCoord (zoomOut sampleConfig sampleWidget ⟨49, 50⟩) ⟨49, 50⟩ = (-2, 0) := by
    norm_num [itemCoord, zoomOut, sampleConfig, sampleWidget, construct, paneCentre,
      centerPoints, mouseInLeftOrRightView, QPoint.add, QPoint.sub, QPoint.divReal,
      QPoint.isNull, zoomCenterPoint, qRound_eq_floor]
  rw [h1, h2]
  norm_num

/-- C2 (amended): for a cursor point `p` other than (0,0), a positive step factor and a
positive zoom factor, `zoomIn p` keeps the item-local coordinate under `p` exactly; `zoomOut p`
(anchored at the mouse) keeps it exactly when the step factor divides both coordinates of the
distance from `p` to the item centre, and in general moves it by at most half a screen pixel
at the new zoom factor, per coordinate. -/
theorem zoom_keeps_pixel_under_cursor (cfg : Config) (s : Widget) (p : QPoint)
    (hF : 0 < cfg.SPLITVIEWWIDGET_ZOOM_STEP_FACTOR) (hz : 0 < s.zoomFactor)
    (hM : cfg.SPLITVIEWWIDGET_ZOOM_OUT_MOUSE = 1) (hp : p.isNull = false) :
    itemCoord (zoomIn cfg s p) p = itemCoord s p ∧
    (cfg.SPLITVIEWWIDGET_ZOOM_STEP_FACTOR ∣ p.x - ((paneCentre s p).add s.centerOffset).x ∧
      cfg.SPLITVIEWWIDGET_ZOOM_STEP_FACTOR ∣ p.y - ((paneCentre s p).add s.centerOffset).y →
      itemCoord (zoomOut cfg s p) p = itemCoord s p) ∧
    |(itemCoord (zoomOut cfg s p) p).1 - (itemCoord s p).1| * (zoomOut cfg s p).zoomFactor
      ≤ 1 / 2 ∧
    |(itemCoord (zoomOut cfg s p) p).2 - (itemCoord s p).2| * (zoomOut cfg s p).zoomFactor
      ≤ 1 / 2 := by
  have hF0 : (cfg.SPLITVIEWWIDGET_ZOOM_STEP_FACTOR : ℚ) ≠ 0 := by
    have : cfg.SPLITVIEWWIDGET_ZOOM_STEP_FACTOR ≠ 0 := ne_of_gt hF
    exact_mod_cast this
  have hFq : (0 : ℚ) < (cfg.SPLITVIEWWIDGET_ZOOM_STEP_FACTOR : ℚ) := by exact_mod_cast hF
  have hz0 : s.zoomFactor ≠ 0 := ne_of_gt hz
  refine ⟨zoomIn_itemCoord cfg s p (ne_of_gt hF) hp, ?_, ?_, ?_⟩
  · rintro ⟨hx, hy⟩
    have hx2 : cfg.SPLITVIEWWIDGET_ZOOM_STEP_FACTOR ∣ (anchorDiff s p).x := by
      have : (anchorDiff s p).x = -(p.x - ((paneCentre s p).add s.centerOffset).x) := by
        simp only [anchorDiff, QPoint.sub]
        ring
      rw [this]
      exact (dvd_neg).mpr hx
    have hy2 : cfg.SPLITVIEWWIDGET_ZOOM_STEP_FACTOR ∣ (anchorDiff s p).y := by
      have : (anchorDiff s p).y = -(p.y - ((paneCentre s p).add s.centerOffset).y) := by
        simp only [anchorDiff, QPoint.sub]
        ring
      rw [this]
      exact (dvd_neg).mpr hy
    rw [zoomOut_itemCoord cfg s p hM hp, itemCoord_eq]
    have ex := qRound_div_of_dvd _ _ (ne_of_gt hF) hx2
    have ey := qRound_div_of_dvd _ _ (ne_of_gt hF) hy2
    congr 1
    · rw [div_div_eq_mul_div, neg_mul, ex]
    · rw [div_div_eq_mul_div, neg_mul, ey]
  · rw [zoomOut_itemCoord cfg s p hM hp, itemCoord_eq, zoomOut_zoomFactor]
    exact le_of_eq_of_le (zoomOut_shift_eq _ _ _ _ hz hFq) (abs_sub_qRound_le _)
  · rw [zoomOut_itemCoord cfg s p hM hp, itemCoord_eq, zoomOut_zoomFactor]
    exact le_of_eq_of_le (zoomOut_shift_eq _ _ _ _ hz hFq) (abs_sub_qRound_le _)

/-- Witness of `zoom_keeps_pixel_under_cursor`: the sample widget and the cursor (49, 50). -/
theorem zoom_keeps_pixel_under_cursor_witness :
    (0 < sampleConfig.SPLITVIEWWIDGET_ZOOM_STEP_FACTOR ∧ 0 < sampleWidget.zoomFactor ∧
      sampleConfig.SPLITVIEWWIDGET_ZOOM_OUT_MOUSE = 1 ∧
      (⟨49, 50⟩ : QPoint).isNull = false) ∧
    itemCoord (zoomIn sampleConfig sampleWidget ⟨49, 50⟩) ⟨49, 50⟩ =
      itemCoord sampleWidget ⟨49, 50⟩ ∧
    (sampleConfig.SPLITVIEWWIDGET_ZOOM_STEP_FACTOR ∣
        (49 : Int) - ((paneCentre sampleWidget ⟨49, 50⟩).add sampleWidget.centerOffset).x ∧
      sampleConfig.SPLITVIEWWIDGET_ZOOM_STEP_FACTOR ∣
        (50 : Int) - ((paneCentre sampleWidget ⟨49, 50⟩).add sampleWidget.centerOffset).y →
      itemCoord (zoomOut sampleConfig sampleWidget ⟨49, 50⟩) ⟨49, 50⟩ =
        itemCoord sampleWidget ⟨49, 50⟩) ∧
    |(itemCoord (zoomOut sampleConfig sampleWidget ⟨49, 50⟩) ⟨49, 50⟩).1 -
        (itemCoord sampleWidget ⟨49, 50⟩).1| *
      (zoomOut sampleConfig sampleWidget ⟨49, 50⟩).zoomFactor ≤ 1 / 2 ∧
    |(itemCoord (zoomOut sampleConfig sampleWidget ⟨49, 50⟩) ⟨49, 50⟩).2 -
        (itemCoord sampleWidget ⟨49, 50⟩).2| *
      (zoomOut sampleConfig sampleWidget ⟨49, 50⟩).zoomFactor ≤ 1 / 2 :=
  ⟨⟨by decide, by norm_num [sampleWidget, construct], rfl, rfl⟩,
    zoom_keeps_pixel_under_cursor sampleConfig sampleWidget ⟨49, 50⟩ (by decide)
      (by norm_num [sampleWidget, construct]) rfl rfl⟩

/-- C3 fails for narrow widgets: with a clip margin of 10 pixels and a widget 11 pixels wide,
a mouse move during the drag sets `splittingPoint` to 10/9, which is neither in
`[m, 1-m]` (here `m = 10/9`) nor in `[0, 1]`. -/
theorem drag_in_narrow_widget_leaves_range :
    narrowDraggedWidget.splitting = true ∧ narrowDraggedWidget.splittingDragging = true ∧
    ¬ (marginFraction sampleConfig narrowDraggedWidget ≤
        (mouseMoveEvent sampleConfig narrowDraggedWidget
          ⟨MouseButton.NoButton, ⟨5, 50⟩⟩).splittingPoint ∧
      (mouseMoveEvent sampleConfig narrowDraggedWidget
          ⟨MouseButton.NoButton, ⟨5, 50⟩⟩).splittingPoint ≤
        1 - marginFraction sampleConfig narrowDraggedWidget) ∧
    ¬ ((mouseMoveEvent sampleConfig narrowDraggedWidget
          ⟨MouseButton.NoButton, ⟨5, 50⟩⟩).splittingPoint ≤ 1) := by
  have hn : narrowDraggedWidget =
      { construct 0 0 11 100 SplittingLineStyle.SOLID_LINE with
        splitting := true, splittingDragging := true } := by
    norm_num [narrowDraggedWidget, run, step, setSplitEnabled, mousePressEvent, construct,
      overSplitter, splitPosPix, sampleConfig, toInt]
  have hs : narrowDraggedWidget.splitting = true := by rw [hn]
  have hd : narrowDraggedWidget.splittingDragging = true := by rw [hn]
  have hw : narrowDraggedWidget.width = 11 := by rw [hn]; rfl
  have hv : (mouseMoveEvent sampleConfig narrowDraggedWidget
      ⟨MouseButton.NoButton, ⟨5, 50⟩⟩).splittingPoint = 10 / 9 := by
    rw [mouseMoveEvent_splittingPoint_drag _ _ _ hs hd rfl]
    norm_num [dragSplittingPoint, hw, sampleConfig, clip]
  have hm : marginFraction sampleConfig narrowDraggedWidget = 10 / 9 := by
    norm_num [marginFraction, hw, sampleConfig]
  refine ⟨hs, hd, ?_, ?_⟩
  · rw [hv, hm]; norm_num
  · rw [hv]; norm_num

/-- C3 (amended): for a widget wide enough for both clip margins (`width()-2` at least twice
the non-negative `SPLITVIEWWIDGET_SPLITTER_CLIPX`, and `width() > 2`), after a mouse move
handled while the splitter is dragged, and after the left-button release that ends the drag,
`splittingPoint` lies in `[m, 1-m]` with `m = SPLITVIEWWIDGET_SPLITTER_CLIPX / (width()-2)`,
hence in `[0, 1]`; the move leaves the drag active and the release ends it. -/
theorem drag_keeps_splittingPoint_in_margins (cfg : Config) (s : Widget)
    (pMove pRelease : QPoint)
    (hc : 0 ≤ cfg.SPLITVIEWWIDGET_SPLITTER_CLIPX)
    (hw : 2 * cfg.SPLITVIEWWIDGET_SPLITTER_CLIPX ≤ s.width - 2) (hw2 : 2 < s.width)
    (hs : s.splitting = true) (hd : s.splittingDragging = true) :
    (marginFraction cfg s ≤
        (mouseMoveEvent cfg s ⟨MouseButton.NoButton, pMove⟩).splittingPoint ∧
      (mouseMoveEvent cfg s ⟨MouseButton.NoButton, pMove⟩).splittingPoint ≤
        1 - marginFraction cfg s ∧
      0 ≤ (mouseMoveEvent cfg s ⟨MouseButton.NoButton, pMove⟩).splittingPoint ∧
      (mouseMoveEvent cfg s ⟨MouseButton.NoButton, pMove⟩).splittingPoint ≤ 1 ∧
      (mouseMoveEvent cfg s ⟨MouseButton.NoButton, pMove⟩).splittingDragging = true) ∧
    (marginFraction cfg s ≤
        (mouseReleaseEvent cfg s ⟨MouseButton.LeftButton, pRelease⟩).splittingPoint ∧
      (mouseReleaseEvent cfg s ⟨MouseButton.LeftButton, pRelease⟩).splittingPoint ≤
        1 - marginFraction cfg s ∧
      0 ≤ (mouseReleaseEvent cfg s ⟨MouseButton.LeftButton, pRelease⟩).splittingPoint ∧
      (mouseReleaseEvent cfg s ⟨MouseButton.LeftButton, pRelease⟩).splittingPoint ≤ 1 ∧
      (mouseReleaseEvent cfg s ⟨MouseButton.LeftButton, pRelease⟩).splittingDragging = false) := by
  have hm : 0 ≤ marginFraction cfg s := by
    unfold marginFraction
    apply div_nonneg
    · exact_mod_cast hc
    · have : (0 : Int) ≤ s.width - 2 := by omega
      exact_mod_cast this
  constructor
  · obtain ⟨h1, h2⟩ := dragSplittingPoint_bounds cfg s pMove.x hw hw2
    rw [mouseMoveEvent_splittingPoint_drag cfg s ⟨MouseButton.NoButton, pMove⟩ hs hd rfl]
    exact ⟨h1, h2, by linarith, by linarith,
      mouseMoveEvent_splittingDragging cfg s ⟨MouseButton.NoButton, pMove⟩ hs hd⟩
  · obtain ⟨h1, h2⟩ := dragSplittingPoint_bounds cfg s pRelease.x hw hw2
    obtain ⟨h3, h4⟩ :=
      mouseReleaseEvent_drag cfg s ⟨MouseButton.LeftButton, pRelease⟩ hs hd rfl
    rw [h3]
    exact ⟨h1, h2, by linarith, by linarith, h4⟩

/-- Witness of `drag_keeps_splittingPoint_in_margins`: the sample widget (100 pixels wide,
clip margin 10) with the splitter dragged, a move to x = 3 and a release at x = 200. -/
theorem drag_keeps_splittingPoint_in_margins_witness :
    (0 ≤ sampleConfig.SPLITVIEWWIDGET_SPLITTER_CLIPX ∧
      2 * sampleConfig.SPLITVIEWWIDGET_SPLITTER_CLIPX ≤ draggedWidget.width - 2 ∧
      2 < draggedWidget.width ∧ draggedWidget.splitting = true ∧
      draggedWidget.splittingDragging = true) ∧
    (marginFraction sampleConfig draggedWidget ≤
        (mouseMoveEvent sampleConfig draggedWidget
          ⟨MouseButton.NoButton, ⟨3, 50⟩⟩).splittingPoint ∧
      (mouseMoveEvent sampleConfig draggedWidget
          ⟨MouseButton.NoButton, ⟨3, 50⟩⟩).splittingPoint ≤
        1 - marginFraction sampleConfig draggedWidget ∧
      0 ≤ (mouseMoveEvent sampleConfig draggedWidget
          ⟨MouseButton.NoButton, ⟨3, 50⟩⟩).splittingPoint ∧
      (mouseMoveEvent sampleConfig draggedWidget
          ⟨MouseButton.NoButton, ⟨3, 50⟩⟩).splittingPoint ≤ 1 ∧
      (mouseMoveEvent sampleConfig draggedWidget
          ⟨MouseButton.NoButton, ⟨3, 50⟩⟩).splittingDragging = true) ∧
    (marginFraction sampleConfig draggedWidget ≤
        (mouseReleaseEvent sampleConfig draggedWidget
          ⟨MouseButton.LeftButton, ⟨200, 50⟩⟩).splittingPoint ∧
      (mouseReleaseEvent sampleConfig draggedWidget
          ⟨MouseButton.LeftButton, ⟨200, 50⟩⟩).splittingPoint ≤
        1 - marginFraction sampleConfig draggedWidget ∧
      0 ≤ (mouseReleaseEvent sampleConfig draggedWidget
          ⟨MouseButton.LeftButton, ⟨200, 50⟩⟩).splittingPoint ∧
      (mouseReleaseEvent sampleConfig draggedWidget
          ⟨MouseButton.LeftButton, ⟨200, 50⟩⟩).splittingPoint ≤ 1 ∧
      (mouseReleaseEvent sampleConfig draggedWidget
          ⟨MouseButton.LeftButton, ⟨200, 50⟩⟩).splittingDragging = false) :=
  ⟨⟨by decide, by decide, by decide, rfl, rfl⟩,
    drag_keeps_splittingPoint_in_margins sampleConfig draggedWidget ⟨3, 50⟩ ⟨200, 50⟩
      (by decide) (by decide) (by decide) rfl rfl⟩

/-- C4: whenever the zoom box block of `paintEvent` runs and completes, then for every pane it
computes a pixel position for (pane 0, and pane 1 when two views are shown) the validity flag
`pixelPosInItem` of the pane is true if and only if the computed position `(x, y)` satisfies
`0 <= x < width` and `0 <= y < height` of that pane's item. -/
theorem pixelPosInItem_iff_in_item (s : Widget) (item0 item1 : Option PlaylistItem)
    (infos : ViewInfo × ViewInfo)
    (ha : zoomBoxActive s item0 item1 = true)
    (h : zoomBoxInfos s item0 item1 = some infos) :
    (∃ it0, item0 = some it0 ∧
      (infos.1.pixelPosInItem = true ↔
        (0 ≤ infos.1.pixelPos.x ∧ infos.1.pixelPos.x < it0.videoWidth) ∧
        (0 ≤ infos.1.pixelPos.y ∧ infos.1.pixelPos.y < it0.videoHeight))) ∧
    (viewNum s item1 = 2 → ∃ it1, item1 = some it1 ∧
      (infos.2.pixelPosInItem = true ↔
        (0 ≤ infos.2.pixelPos.x ∧ infos.2.pixelPos.x < it1.videoWidth) ∧
        (0 ≤ infos.2.pixelPos.y ∧ infos.2.pixelPos.y < it1.videoHeight))) := by
  unfold zoomBoxInfos at h
  rw [if_pos ha] at h
  cases item0 with
  | none => simp at h
  | some it0 =>
    by_cases hv : viewNum s item1 = 2
    · cases item1 with
      | none => simp [hv] at h
      | some it1 =>
        simp only [hv, if_true, Option.some.injEq] at h
        subst h
        exact ⟨⟨it0, rfl, viewInfo_pixelPosInItem_iff _ _ _⟩,
          fun _ => ⟨it1, rfl, viewInfo_pixelPosInItem_iff _ _ _⟩⟩
    · simp only [hv, if_false, Option.some.injEq] at h
      subst h
      exact ⟨⟨it0, rfl, viewInfo_pixelPosInItem_iff _ _ _⟩, fun h2 => absurd h2 hv⟩

/-- Witness of `pixelPosInItem_iff_in_item`: the sample widget with a 4 x 4 item and the mouse
at (47, 50). -/
theorem pixelPosInItem_iff_in_item_witness :
    zoomBoxActive zoomBoxWidget (some ⟨4, 4⟩) none = true ∧
    ∃ infos, zoomBoxInfos zoomBoxWidget (some ⟨4, 4⟩) none = some infos ∧
      ((∃ it0, (some ⟨4, 4⟩ : Option PlaylistItem) = some it0 ∧
        (infos.1.pixelPosInItem = true ↔
          (0 ≤ infos.1.pixelPos.x ∧ infos.1.pixelPos.x < it0.videoWidth) ∧
          (0 ≤ infos.1.pixelPos.y ∧ infos.1.pixelPos.y < it0.videoHeight))) ∧
      (viewNum zoomBoxWidget none = 2 → ∃ it1, (none : Option PlaylistItem) = some it1 ∧
        (infos.2.pixelPosInItem = true ↔
          (0 ≤ infos.2.pixelPos.x ∧ infos.2.pixelPos.x < it1.videoWidth) ∧
          (0 ≤ infos.2.pixelPos.y ∧ infos.2.pixelPos.y < it1.videoHeight)))) := by
  have ha : zoomBoxActive zoomBoxWidget (some ⟨4, 4⟩) none = true := by decide
  refine ⟨ha, ?_⟩
  have hs : ∃ infos, zoomBoxInfos zoomBoxWidget (some ⟨4, 4⟩) none = some infos := by
    unfold zoomBoxInfos
    rw [if_pos ha]
    exact ⟨_, rfl⟩
  obtain ⟨infos, hi⟩ := hs
  exact ⟨infos, hi, pixelPosInItem_iff_in_item zoomBoxWidget (some ⟨4, 4⟩) none infos ha hi⟩

/-- C5: `resetViews` leaves `splittingPoint = 0.5`, `zoomFactor = 1.0` and
`centerOffset = (0,0)` and changes no other field of the widget state. -/
theorem resetViews_restores_defaults (s : Widget) :
    (resetViews s).splittingPoint = 1 / 2 ∧
    (resetViews s).zoomFactor = 1 ∧
    (resetViews s).centerOffset = ⟨0, 0⟩ ∧
    (resetViews s).viewMode = s.viewMode ∧
    (resetViews s).splitting = s.splitting ∧
    (resetViews s).splittingDragging = s.splittingDragging ∧
    (resetViews s).viewDragging = s.viewDragging ∧
    (resetViews s).viewDraggingMousePosStart = s.viewDraggingMousePosStart ∧
    (resetViews s).viewDraggingStartOffset = s.viewDraggingStartOffset ∧
    (resetViews s).drawRegularGrid = s.drawRegularGrid ∧
    (resetViews s).regularGridSize = s.regularGridSize ∧
    (resetViews s).drawZoomBox = s.drawZoomBox ∧
    (resetViews s).zoomBoxMousePosition = s.zoomBoxMousePosition ∧
    (resetViews s).splittingLineStyle = s.splittingLineStyle ∧
    (resetViews s).playlist = s.playlist ∧
    (resetViews s).playback = s.playback ∧
    (resetViews s).cursor = s.cursor ∧
    (resetViews s).width = s.width ∧
    (resetViews s).height = s.height ∧
    (resetViews s).geometryX = s.geometryX ∧
    (resetViews s).geometryY = s.geometryY := by
  simp [resetViews]

/-- C6, evaluated at a failing input: fresh 100 x 100 widget, zoom factor 1, a 4 x 4 item and
the cursor at (47, 50). The specified x coordinate is `floor((47 - 50)/1 + 4/2) = -1`, the
code computes -2 (a negative value is lowered by one even when it is a whole number). -/
theorem pixelPos_at_negative_whole_value :
    (zoomBoxInfos zoomBoxWidget (some ⟨4, 4⟩) none).map (fun infos => infos.1.pixelPos) =
      some ⟨-2, 2⟩ ∧
    specPixelCoord 47
      ((paneCentre zoomBoxWidget ⟨47, 50⟩).add zoomBoxWidget.centerOffset).x
      zoomBoxWidget.zoomFactor 4 = -1 := by
  constructor
  · have ha : zoomBoxActive zoomBoxWidget (some ⟨4, 4⟩) none = true := by decide
    unfold zoomBoxInfos
    rw [if_pos ha]
    norm_num [zoomBoxWidget, sampleWidget, construct, viewNum, viewInfo, pixelCoord_eq,
      diffInItem, paneCentre, centerPoints, mouseInLeftOrRightView, QPoint.add,
      QPoint.divReal, qRound_eq_floor]
    rw [show (-1 : ℚ) = ((-1 : Int) : ℚ) by norm_num, Int.ceil_intCast]
    norm_num
  · norm_num [specPixelCoord, zoomBoxWidget, sampleWidget, construct, paneCentre, centerPoints,
      mouseInLeftOrRightView, QPoint.add, QPoint.divReal, qRound_eq_floor]

/-- C7: for a positive step factor, `zoomFactor` is strictly positive in every state reached
from the constructed widget by any sequence of zoom, wheel, reset, mouse and configuration
operations. -/
theorem zoomFactor_pos_of_reachable (cfg : Config) (gx gy w h : Int)
    (style : SplittingLineStyle) (ops : List Op)
    (hF : 0 < cfg.SPLITVIEWWIDGET_ZOOM_STEP_FACTOR) :
    0 < (run cfg (construct gx gy w h style) ops).zoomFactor :=
  run_zoomFactor_pos cfg hF ops (construct gx gy w h style) one_pos

/-- Witness of `zoomFactor_pos_of_reachable`: a zoom out at the cursor, a wheel zoom in, a
right-button press and a reset on the sample widget. -/
theorem zoomFactor_pos_of_reachable_witness :
    0 < sampleConfig.SPLITVIEWWIDGET_ZOOM_STEP_FACTOR ∧
    0 < (run sampleConfig (construct 0 0 100 100 SplittingLineStyle.SOLID_LINE)
      [Op.zoomOut ⟨49, 50⟩, Op.wheelEvent ⟨10, 10⟩ 120,
       Op.mousePressEvent ⟨MouseButton.RightButton, ⟨20, 20⟩⟩, Op.resetViews,
       Op.zoomOut ⟨0, 0⟩]).zoomFactor :=
  ⟨by decide, zoomFactor_pos_of_reachable sampleConfig 0 0 100 100
    SplittingLineStyle.SOLID_LINE _ (by decide)⟩

/-- C8, evaluated at a failing input: with step factor 2 and the default grid size 64, seven
zoom out steps bring `zoomFactor` to 1/128, the integer grid spacing
`int(regularGridSize * zoomFactor)` is 0, and painting with an item selected and the grid
enabled divides by it. -/
theorem paintRegularGrid_divides_by_zero :
    zoomedOutGridWidget.zoomFactor = 1 / 128 ∧
    zoomedOutGridWidget.drawRegularGrid = true ∧
    toInt ((zoomedOutGridWidget.regularGridSize : ℚ) * zoomedOutGridWidget.zoomFactor) = 0 ∧
    paintRegularGrid zoomedOutGridWidget ⟨640, 480⟩ = none ∧
    paintEvent zoomedOutGridWidgetWithItem = none := by
  have hn : zoomedOutGridWidget =
      { sampleWidget with drawRegularGrid := true, zoomFactor := 1 / 128 } := by
    norm_num [zoomedOutGridWidget, run, step, setRegularGridEnabled, zoomOut, sampleWidget,
      construct, sampleConfig, QPoint.isNull, QPoint.divReal, qRound_eq_floor]
  have hz : zoomedOutGridWidget.zoomFactor = 1 / 128 := by rw [hn]
  have hg : zoomedOutGridWidget.regularGridSize = 64 := by rw [hn]; rfl
  have hd : zoomedOutGridWidget.drawRegularGrid = true := by rw [hn]
  have h0 : toInt ((zoomedOutGridWidget.regularGridSize : ℚ) * zoomedOutGridWidget.zoomFactor)
      = 0 := by
    rw [hz, hg]
    norm_num [toInt]
  refine ⟨hz, hd, h0, paintRegularGrid_eq_none _ _ h0, ?_⟩
  have hn2 : zoomedOutGridWidgetWithItem =
      { sampleWidget with
        drawRegularGrid := true, zoomFactor := 1 / 128
        playlist := some (some ⟨640, 480⟩, none), playback := some 0 } := by
    unfold zoomedOutGridWidgetWithItem
    rw [hn]
  have hpl : zoomedOutGridWidgetWithItem.playlist = some (some ⟨640, 480⟩, none) := by
    rw [hn2]
  have hpb : zoomedOutGridWidgetWithItem.playback = some 0 := by rw [hn2]
  have hd2 : zoomedOutGridWidgetWithItem.drawRegularGrid = true := by rw [hn2]
  have h02 : toInt ((zoomedOutGridWidgetWithItem.regularGridSize : ℚ) *
      zoomedOutGridWidgetWithItem.zoomFactor) = 0 := by
    rw [hn2]
    norm_num [toInt, sampleWidget, construct]
  exact paintEvent_eq_none_of_grid_zero zoomedOutGridWidgetWithItem ⟨640, 480⟩ none 0
    hpl hpb hd2 h02

/-- C9, evaluated: with the playlist not set the paint completes and issues no call at all,
but with the playlist set and the playback controller still NULL the paint dereferences the
NULL controller (`playback->getCurrentFrame()`) and fails. -/
theorem paintEvent_fails_without_playback :
    sampleWidget.playlist = none ∧ paintEvent sampleWidget = some [] ∧
    playlistOnlyWidget.playlist = some (none, none) ∧ playlistOnlyWidget.playback = none ∧
    paintEvent playlistOnlyWidget = none :=
  ⟨rfl, paintEvent_of_no_playlist sampleWidget rfl, rfl, rfl,
    paintEvent_of_no_playback playlistOnlyWidget (none, none) rfl rfl⟩

/-- C10 fails in split mode: with both collaborators set, nothing selected and splitting on,
`paintEvent` still draws the splitter line (here at x = 50 over the height of 100). -/
theorem paintEvent_draws_splitter_without_selection :
    splitNoSelectionWidget.playlist = some (none, none) ∧
    splitNoSelectionWidget.playback = some 0 ∧
    paintEvent splitNoSelectionWidget =
      some [PaintOp.setClipping false, PaintOp.drawLine 50 0 50 100] ∧
    (PaintOp.drawLine 50 0 50 100).isDrawing = true := by
  refine ⟨rfl, rfl, ?_, rfl⟩
  have hx : xSplit splitNoSelectionWidget = 50 := by
    norm_num [xSplit, splitNoSelectionWidget, sampleWidget, construct, toInt]
  unfold paintEvent
  simp only [splitNoSelectionWidget, zoomBoxInfos_no_selection, paintItems_no_selection]
  simp only [paintSplitter, paintZoomFactor]
  rw [show xSplit { sampleWidget with
      playlist := some (none, none), playback := some 0, splitting := true } = 50 from hx]
  simp [sampleWidget, construct]

/-- C10 (amended): with playlist and playback set and no item selected, `paintEvent` completes
and draws no item content (no frame, grid, pixel rectangle, zoom box or info panel); all it
issues is, when splitting is on, the reset of the clipping and the splitter affordance
(handles or line, by `splittingLineStyle`) and, when `zoomFactor` is not 1.0, the zoom factor
label. With splitting off and `zoomFactor = 1.0` it issues no call at all. -/
theorem paintEvent_without_selection (s : Widget) (frame : Int)
    (hpl : s.playlist = some (none, none)) (hpb : s.playback = some frame) :
    paintEvent s =
      some ((if s.splitting = true then
              [PaintOp.setClipping false,
               if s.splittingLineStyle = SplittingLineStyle.TOP_BOTTOM_HANDLERS then
                 PaintOp.fillPath (xSplit s) s.height
               else PaintOp.drawLine (xSplit s) 0 (xSplit s) s.height]
             else []) ++
            (if s.zoomFactor ≠ 1 then [PaintOp.drawText s.zoomFactor] else [])) ∧
    (s.splitting = false → s.zoomFactor = 1 → paintEvent s = some []) := by
  have key : paintEvent s =
      some ((if s.splitting = true then
              [PaintOp.setClipping false,
               if s.splittingLineStyle = SplittingLineStyle.TOP_BOTTOM_HANDLERS then
                 PaintOp.fillPath (xSplit s) s.height
               else PaintOp.drawLine (xSplit s) 0 (xSplit s) s.height]
             else []) ++
            (if s.zoomFactor ≠ 1 then [PaintOp.drawText s.zoomFactor] else [])) := by
    unfold paintEvent
    rw [hpl, hpb]
    simp only [zoomBoxInfos_no_selection, paintItems_no_selection, paintSplitter,
      paintZoomFactor]
    cases s.splitting
    · simp
    · by_cases hst : s.splittingLineStyle = SplittingLineStyle.TOP_BOTTOM_HANDLERS <;>
        simp [hst]
  refine ⟨key, ?_⟩
  intro hs hz
  rw [key, hs, hz]
  simp

/-- Witness of `paintEvent_without_selection`: the sample widget in split mode with both
collaborators set and nothing selected. -/
theorem paintEvent_without_selection_witness :
    (splitNoSelectionWidget.playlist = some (none, none) ∧
      splitNoSelectionWidget.playback = some 0) ∧
    (paintEvent splitNoSelectionWidget =
      some ((if splitNoSelectionWidget.splitting = true then
              [PaintOp.setClipping false,
               if splitNoSelectionWidget.splittingLineStyle =
                   SplittingLineStyle.TOP_BOTTOM_HANDLERS then
                 PaintOp.fillPath (xSplit splitNoSelectionWidget) splitNoSelectionWidget.height
               else PaintOp.drawLine (xSplit splitNoSelectionWidget) 0
                 (xSplit splitNoSelectionWidget) splitNoSelectionWidget.height]
             else []) ++
            (if splitNoSelectionWidget.zoomFactor ≠ 1 then
              [PaintOp.drawText splitNoSelectionWidget.zoomFactor] else [])) ∧
    (splitNoSelectionWidget.splitting = false → splitNoSelectionWidget.zoomFactor = 1 →
      paintEvent splitNoSelectionWidget = some [])) :=
  ⟨⟨rfl, rfl⟩, paintEvent_without_selection splitNoSelectionWidget 0 rfl rfl⟩

/-- C11: in every paint that completes, every call of `getPixelValues` is made for a pane
`view` with a pixel position `(x, y)` that satisfies `0 <= x < width` and `0 <= y < height`
of the item shown in that very pane; an out-of-range position is never looked up. -/
theorem getPixelValues_only_in_item (s : Widget) (ops : List PaintOp) (view : Nat)
    (pos : QPoint) (h : paintEvent s = some ops)
    (hm : PaintOp.getPixelValues view pos ∈ ops) :
    ∃ it, selectedItem s view = some it ∧
      (0 ≤ pos.x ∧ pos.x < it.videoWidth) ∧ (0 ≤ pos.y ∧ pos.y < it.videoHeight) := by
  unfold paintEvent at h
  cases hpl : s.playlist with
  | none =>
    rw [hpl] at h
    simp only [Option.some.injEq] at h
    subst h
    simp at hm
  | some sel =>
    obtain ⟨item0, item1⟩ := sel
    rw [hpl] at h
    simp only at h
    cases hpb : s.playback with
    | none => rw [hpb] at h; simp at h
    | some frame =>
      rw [hpb] at h
      simp only at h
      cases hi : zoomBoxInfos s item0 item1 with
      | none => rw [hi] at h; simp at h
      | some infos =>
        rw [hi] at h
        simp only at h
        cases hit : paintItems s item0 item1 frame infos with
        | none => rw [hit] at h; simp at h
        | some itemOps =>
          rw [hit] at h
          simp only [Option.some.injEq] at h
          subst h
          have hmi : PaintOp.getPixelValues view pos ∈ itemOps := by
            simp only [List.mem_append] at hm
            rcases hm with (hm | hm) | hm
            · exact hm
            · unfold paintSplitter at hm
              split_ifs at hm <;> simp at hm
            · unfold paintZoomFactor at hm
              split_ifs at hm <;> simp at hm
          obtain ⟨hf0, hf1⟩ := zoomBoxInfos_flags s item0 item1 infos hi
          rcases getPixelValues_mem_paintItems s item0 item1 frame infos itemOps hit view pos hmi
            with ⟨hv, -, hp, hf⟩ | ⟨hv, -, -, hp, hf⟩
          · obtain ⟨it0, h0, hr⟩ := hf0 hf
            refine ⟨it0, ?_, ?_⟩
            · simp [selectedItem, hpl, hv, h0]
            · rw [hp]; exact hr
          · obtain ⟨it1, h1, hr⟩ := hf1 hf
            refine ⟨it1, ?_, ?_⟩
            · simp [selectedItem, hpl, hv, h1]
            · rw [hp]; exact hr

/-- Witness of `getPixelValues_only_in_item`: the 400 x 300 widget with a 4 x 4 item and the
cursor at its centre looks up the pixel (2, 2), which is inside the item. -/
theorem getPixelValues_only_in_item_witness :
    ∃ ops, paintEvent inspectWidget = some ops ∧
      PaintOp.getPixelValues 0 ⟨2, 2⟩ ∈ ops ∧
      ∃ it, selectedItem inspectWidget 0 = some it ∧
        (0 ≤ (2 : Int) ∧ (2 : Int) < it.videoWidth) ∧
        (0 ≤ (2 : Int) ∧ (2 : Int) < it.videoHeight) :=
  ⟨_, paintEvent_inspectWidget, by simp,
    getPixelValues_only_in_item inspectWidget _ 0 ⟨2, 2⟩ paintEvent_inspectWidget (by simp)⟩

/-- C12: in a state with no splitter drag active, a right-button press at `p0` (with
`centerOffset = o0`), any sequence of mouse moves and a right-button release at `p1` give
`centerOffset = o0 + (p - p0)` after each move to `p` and `o0 + (p1 - p0)` after the release,
whatever the positions in between; `viewDragging` is true from the press to the release and
false after it, and `zoomFactor` and `splittingPoint` keep their values throughout. -/
theorem right_drag_moves_centerOffset (cfg : Config) (s : Widget) (p0 p p1 : QPoint)
    (moves : List QPoint)
    (h : ¬ (s.splitting = true ∧ s.splittingDragging = true)) :
    ((mousePressEvent cfg s ⟨MouseButton.RightButton, p0⟩).viewDragging = true ∧
      (mousePressEvent cfg s ⟨MouseButton.RightButton, p0⟩).centerOffset = s.centerOffset ∧
      (mousePressEvent cfg s ⟨MouseButton.RightButton, p0⟩).zoomFactor = s.zoomFactor ∧
      (mousePressEvent cfg s ⟨MouseButton.RightButton, p0⟩).splittingPoint =
        s.splittingPoint) ∧
    ((dragMoves cfg (mousePressEvent cfg s ⟨MouseButton.RightButton, p0⟩)
        (moves ++ [p])).centerOffset = s.centerOffset.add (p.sub p0) ∧
      (dragMoves cfg (mousePressEvent cfg s ⟨MouseButton.RightButton, p0⟩)
        (moves ++ [p])).viewDragging = true ∧
      (dragMoves cfg (mousePressEvent cfg s ⟨MouseButton.RightButton, p0⟩)
        (moves ++ [p])).zoomFactor = s.zoomFactor ∧
      (dragMoves cfg (mousePressEvent cfg s ⟨MouseButton.RightButton, p0⟩)
        (moves ++ [p])).splittingPoint = s.splittingPoint) ∧
    ((mouseReleaseEvent cfg
        (dragMoves cfg (mousePressEvent cfg s ⟨MouseButton.RightButton, p0⟩) moves)
        ⟨MouseButton.RightButton, p1⟩).centerOffset = s.centerOffset.add (p1.sub p0) ∧
      (mouseReleaseEvent cfg
        (dragMoves cfg (mousePressEvent cfg s ⟨MouseButton.RightButton, p0⟩) moves)
        ⟨MouseButton.RightButton, p1⟩).viewDragging = false ∧
      (mouseReleaseEvent cfg
        (dragMoves cfg (mousePressEvent cfg s ⟨MouseButton.RightButton, p0⟩) moves)
        ⟨MouseButton.RightButton, p1⟩).zoomFactor = s.zoomFactor ∧
      (mouseReleaseEvent cfg
        (dragMoves cfg (mousePressEvent cfg s ⟨MouseButton.RightButton, p0⟩) moves)
        ⟨MouseButton.RightButton, p1⟩).splittingPoint = s.splittingPoint) := by
  have hpress : ViewDragInv p0 s.centerOffset s.zoomFactor s.splittingPoint
      (mousePressEvent cfg s ⟨MouseButton.RightButton, p0⟩) := by
    rw [mousePressEvent_right]
    exact ⟨rfl, rfl, rfl, h, rfl, rfl⟩
  have hmoves := dragMoves_inv cfg p0 s.centerOffset s.zoomFactor s.splittingPoint moves _ hpress
  refine ⟨?_, ?_, ?_⟩
  · rw [mousePressEvent_right]
    exact ⟨rfl, rfl, rfl, rfl⟩
  · rw [dragMoves_snoc]
    obtain ⟨⟨hv, -, -, -, hz, hsp⟩, hc⟩ :=
      mouseMoveEvent_viewDrag cfg _ p p0 s.centerOffset s.zoomFactor s.splittingPoint hmoves
    exact ⟨hc, hv, hz, hsp⟩
  · exact mouseReleaseEvent_viewDrag cfg _ p1 p0 s.centerOffset s.zoomFactor s.splittingPoint
      hmoves

/-- Witness of `right_drag_moves_centerOffset`: on the sample widget, a press at (10, 10),
moves to (20, 5) and (70, 90), then to (30, 40), and a release at (35, 45). -/
theorem right_drag_moves_centerOffset_witness :
    ¬ (sampleWidget.splitting = true ∧ sampleWidget.splittingDragging = true) ∧
    (dragMoves sampleConfig
        (mousePressEvent sampleConfig sampleWidget ⟨MouseButton.RightButton, ⟨10, 10⟩⟩)
        ([⟨20, 5⟩, ⟨70, 90⟩] ++ [⟨30, 40⟩])).centerOffset =
      sampleWidget.centerOffset.add ((⟨30, 40⟩ : QPoint).sub ⟨10, 10⟩) ∧
    (mouseReleaseEvent sampleConfig
        (dragMoves sampleConfig
          (mousePressEvent sampleConfig sampleWidget ⟨MouseButton.RightButton, ⟨10, 10⟩⟩)
          [⟨20, 5⟩, ⟨70, 90⟩])
        ⟨MouseButton.RightButton, ⟨35, 45⟩⟩).centerOffset =
      sampleWidget.centerOffset.add ((⟨35, 45⟩ : QPoint).sub ⟨10, 10⟩) ∧
    (mouseReleaseEvent sampleConfig
        (dragMoves sampleConfig
          (mousePressEvent sampleConfig sampleWidget ⟨MouseButton.RightButton, ⟨10, 10⟩⟩)
          [⟨20, 5⟩, ⟨70, 90⟩])
        ⟨MouseButton.RightButton, ⟨35, 45⟩⟩).viewDragging = false := by
  have hs : ¬ (sampleWidget.splitting = true ∧ sampleWidget.splittingDragging = true) := by
    decide
  have key := right_drag_moves_centerOffset sampleConfig sampleWidget ⟨10, 10⟩ ⟨30, 40⟩
    ⟨35, 45⟩ [⟨20, 5⟩, ⟨70, 90⟩] hs
  exact ⟨hs, key.2.1.1, key.2.2.1, key.2.2.2.1⟩

/-- C13, evaluated at a failing input: the zoom box is enabled and the tracked cursor position
(450, 150) is outside the 400 x 300 widget, so no pixel position is computed; the paint still
draws the zoom box inset (filled rectangle, magnified frame, border) and the info panel, with
the default position (0, 0). -/
theorem paintEvent_draws_zoomBox_with_cursor_outside :
    cursorOutsideWidget.drawZoomBox = true ∧
    (QRect.mk4 cursorOutsideWidget.geometryX cursorOutsideWidget.geometryY
      cursorOutsideWidget.width cursorOutsideWidget.height).contains
        cursorOutsideWidget.zoomBoxMousePosition = false ∧
    paintEvent cursorOutsideWidget =
      some [PaintOp.translate 200 150,
        PaintOp.drawFrame 0 0 1,
        PaintOp.resetTransform,
        PaintOp.fillRect ⟨230, 130, 389, 289⟩,
        PaintOp.setClipRegion ⟨230, 130, 389, 289⟩,
        PaintOp.translate 309 209,
        PaintOp.translate 0 0,
        PaintOp.drawFrame 0 0 32,
        PaintOp.resetTransform,
        PaintOp.setClipping false,
        PaintOp.drawRect ⟨230, 130, 389, 289⟩,
        PaintOp.drawInfoPanel 0 229 289 ⟨0, 0⟩ false,
        PaintOp.resetTransform] := by
  rw [cursorOutsideWidget_eq]
  refine ⟨rfl, by decide, ?_⟩
  have t1 : Int.tdiv 160 2 = 80 := by decide
  have t2 : Int.tdiv 619 2 = 309 := by decide
  have t3 : Int.tdiv 419 2 = 209 := by decide
  norm_num [paintEvent, zoomBoxInfos, zoomBoxActive, QRect.contains, ViewInfo.initial,
    paintItems, paintItem, paintZoomBox, paintSplitter, paintZoomFactor,
    construct, QPoint.divReal, qRound_eq_floor, QPoint.add, QPoint.sub, QRect.mk4,
    QRect.moveBottomRight, QRect.center, QRect.setWidth, xSplit, toInt, t1, t2, t3]

/-- C14 fails for a low viewport: in a view of 400 x 100 pixels without splitting, the inset
is placed at y = -70 .. 89, so its upper part is outside the viewport (y = 0 .. 99), and the
info panel is drawn all the same. The same happens for pane 0 of a 400 x 300 split view with
the split at x = 100, where the inset is placed at x = -70 .. 89. -/
theorem infoPanel_drawn_for_clipped_inset :
    ((paneRect false 0 200 ⟨400, 100⟩).containsRect (insetRect false 0 200 ⟨400, 100⟩) = false ∧
      PaintOp.fillRect (insetRect false 0 200 ⟨400, 100⟩) ∈
        paintZoomBox lowZoomBoxWidget 0 200 ⟨400, 100⟩ (0, 0) 0 ⟨0, 0⟩ false none ∧
      PaintOp.drawInfoPanel 0 229 89 ⟨0, 0⟩ false ∈
        paintZoomBox lowZoomBoxWidget 0 200 ⟨400, 100⟩ (0, 0) 0 ⟨0, 0⟩ false none) ∧
    ((paneRect true 0 100 ⟨400, 300⟩).containsRect (insetRect true 0 100 ⟨400, 300⟩) = false ∧
      PaintOp.fillRect (insetRect true 0 100 ⟨400, 300⟩) ∈
        paintZoomBox splitZoomBoxWidget 0 100 ⟨400, 300⟩ (0, 0) 0 ⟨0, 0⟩ false
          (some (QRect.mk4 0 0 100 300)) ∧
      PaintOp.drawInfoPanel 0 (-71) 289 ⟨0, 0⟩ false ∈
        paintZoomBox splitZoomBoxWidget 0 100 ⟨400, 300⟩ (0, 0) 0 ⟨0, 0⟩ false
          (some (QRect.mk4 0 0 100 300))) := by
  have t1 : Int.tdiv 160 2 = 80 := by decide
  refine ⟨⟨by decide, ?_, ?_⟩, ⟨by decide, ?_, ?_⟩⟩
  · norm_num [paintZoomBox, lowZoomBoxWidget, construct, insetRect, QRect.mk4,
      QRect.moveBottomRight, QPoint.sub, t1]
  · norm_num [paintZoomBox, lowZoomBoxWidget, construct, QRect.mk4,
      QRect.moveBottomRight, QPoint.sub, t1]
  · norm_num [paintZoomBox, splitZoomBoxWidget, construct, insetRect, QRect.mk4,
      QRect.moveBottomRight, t1]
  · norm_num [paintZoomBox, splitZoomBoxWidget, construct, QRect.mk4,
      QRect.moveBottomRight, t1]

/-- C14 (amended): for pane 1, whenever the inset rectangle (160 x 160, anchored 11 pixels
from the bottom right of the viewport) reaches left of the split position `xSplit`, the info
panel is not drawn. For pane 0 the info panel is drawn whenever the zoom box is enabled,
wherever the inset lies. For every pane, the info panel is drawn exactly when the zoom box is
enabled and it is not the case that the pane is pane 1 with `xSplit > width - 171`; the
height of the viewport plays no part in it. -/
theorem infoPanel_suppressed_when_inset_crosses_split (s : Widget) (view : Nat) (xs : Int)
    (botR : QPoint) (tr : ℚ × ℚ) (frame : Int) (pp : QPoint) (flag : Bool)
    (clipRegion : Option QRect) :
    ((insetRect s.splitting 1 xs botR).x1 < xs →
      ∀ op ∈ paintZoomBox s 1 xs botR tr frame pp flag clipRegion, op.isInfoPanel = false) ∧
    (s.drawZoomBox = true →
      PaintOp.drawInfoPanel 0
          (if s.splitting = true then xs - 171 else botR.x - 171) (botR.y - 11) pp flag ∈
        paintZoomBox s 0 xs botR tr frame pp flag clipRegion) ∧
    ((paintZoomBox s view xs botR tr frame pp flag clipRegion).any PaintOp.isInfoPanel = true ↔
      (s.drawZoomBox = true ∧ ¬ (view = 1 ∧ botR.x - 171 < xs))) := by
  have t1 : Int.tdiv (5 * 32) 2 = 80 := by decide
  have hr := isInfoPanel_restoreClip clipRegion
  refine ⟨?_, ?_, ?_⟩
  · intro hx op hop
    rw [insetRect_pane1_x1] at hx
    have hx2 : xs > botR.x - 11 - 80 * 2 := by omega
    simp only [paintZoomBox, t1] at hop
    split_ifs at hop <;>
      simp only [List.mem_append, List.mem_cons, List.mem_singleton, List.not_mem_nil,
        or_false] at hop
    all_goals first
      | (rcases hop with h | h | h | h | h | h | h | h <;> subst h <;>
          first | rfl | exact hr)
      | simp_all
  · intro hz
    simp only [paintZoomBox, t1, hz]
    by_cases hs : s.splitting = true
    · simp [hs]
      ring_nf
      exact Or.inr trivial
    · simp [hs]
      ring_nf
      exact Or.inr trivial
  · have key : xs > botR.x - 11 - 80 * 2 ↔ botR.x - 171 < xs := by
      constructor <;> intro h <;> omega
    simp only [paintZoomBox, t1]
    split_ifs <;>
      simp only [List.any_append, List.any_cons, List.any_nil, hr] <;>
      simp only [PaintOp.isInfoPanel, Bool.or_false, Bool.false_or, Bool.or_true, Bool.true_or,
        Bool.false_eq_true, false_iff, true_iff, not_and, not_not] <;>
      simp only [Bool.not_eq_true', Bool.not_eq_true, Bool.and_eq_true, Bool.and_eq_false_imp,
        beq_iff_eq, decide_eq_true_eq, decide_eq_false_iff_not, Bool.not_eq_false',
        Bool.not_eq_false, not_and, not_not, Classical.not_imp, key] at * <;>
      first
        | tauto
        | simp_all

/-- Witness of `infoPanel_suppressed_when_inset_crosses_split`: in the split 400 x 300 widget
with the split at x = 300 the inset of pane 1 would start at x = 230; the magnified frame is
drawn and the info panel is not, while pane 0 gets its panel. With the inset of pane 1 cut off
only by the top of a viewport 100 pixels high (split at x = 100) the panel is drawn. -/
theorem infoPanel_suppressed_when_inset_crosses_split_witness :
    (insetRect splitZoomBoxWidget.splitting 1 300 ⟨400, 300⟩).x1 < 300 ∧
    splitZoomBoxWidget.drawZoomBox = true ∧
    PaintOp.drawFrame 1 0 32 ∈
      paintZoomBox splitZoomBoxWidget 1 300 ⟨400, 300⟩ (0, 0) 0 ⟨0, 0⟩ false
        (some (QRect.mk4 300 0 100 300)) ∧
    (∀ op ∈ paintZoomBox splitZoomBoxWidget 1 300 ⟨400, 300⟩ (0, 0) 0 ⟨0, 0⟩ false
        (some (QRect.mk4 300 0 100 300)), op.isInfoPanel = false) ∧
    PaintOp.drawInfoPanel 0
        (if splitZoomBoxWidget.splitting = true then 300 - 171 else 400 - 171) (300 - 11)
        ⟨0, 0⟩ false ∈
      paintZoomBox splitZoomBoxWidget 0 300 ⟨400, 300⟩ (0, 0) 0 ⟨0, 0⟩ false
        (some (QRect.mk4 300 0 100 300)) ∧
    (paneRect true 1 100 ⟨400, 100⟩).containsRect (insetRect true 1 100 ⟨400, 100⟩) = false ∧
    (paintZoomBox splitZoomBoxWidget 1 100 ⟨400, 100⟩ (0, 0) 0 ⟨0, 0⟩ false
      (some (QRect.mk4 100 0 300 100))).any PaintOp.isInfoPanel = true := by
  have hx : (insetRect splitZoomBoxWidget.splitting 1 300 ⟨400, 300⟩).x1 < 300 := by decide
  have t1 : Int.tdiv 160 2 = 80 := by decide
  have hd : PaintOp.drawFrame 1 0 32 ∈
      paintZoomBox splitZoomBoxWidget 1 300 ⟨400, 300⟩ (0, 0) 0 ⟨0, 0⟩ false
        (some (QRect.mk4 300 0 100 300)) := by
    norm_num [paintZoomBox, splitZoomBoxWidget, construct, t1]
  exact ⟨hx, rfl, hd,
    (infoPanel_suppressed_when_inset_crosses_split splitZoomBoxWidget 1 300 ⟨400, 300⟩ (0, 0) 0
      ⟨0, 0⟩ false (some (QRect.mk4 300 0 100 300))).1 hx,
    (infoPanel_suppressed_when_inset_crosses_split splitZoomBoxWidget 1 300 ⟨400, 300⟩ (0, 0) 0
      ⟨0, 0⟩ false (some (QRect.mk4 300 0 100 300))).2.1 rfl,
    by decide,
    (infoPanel_suppressed_when_inset_crosses_split splitZoomBoxWidget 1 100 ⟨400, 100⟩ (0, 0) 0
      ⟨0, 0⟩ false (some (QRect.mk4 100 0 300 100))).2.2.mpr
      ⟨rfl, fun h => absurd h.2 (by decide)⟩⟩

/-- C15, evaluated at a failing input: after `setFileInfo("Info", [(Name, a.yuv)])` and the
clearing `setFileInfo()`, the box holds no label but still counts one label pair, and
`setFileInfo("Info", [(Name, b.yuv)])` takes the update-in-place branch, where its assertion
fails; the box does not get to show the two labels of the list. -/
theorem setFileInfoList_fails_after_clearing :
    FileInfoGroupBox.run FileInfoGroupBox.construct
      [FileInfoGroupBox.BoxOp.setFileInfoList "Info" [("Name", "a.yuv")],
       FileInfoGroupBox.BoxOp.setFileInfo] = some ⟨"File Info", [], 1⟩ ∧
    FileInfoGroupBox.setFileInfoList ⟨"File Info", [], 1⟩ "Info" [("Name", "b.yuv")] = none ∧
    FileInfoGroupBox.run FileInfoGroupBox.construct
      [FileInfoGroupBox.BoxOp.setFileInfoList "Info" [("Name", "a.yuv")],
       FileInfoGroupBox.BoxOp.setFileInfo,
       FileInfoGroupBox.BoxOp.setFileInfoList "Info" [("Name", "b.yuv")]] = none := by
  refine ⟨by decide, by decide, by decide⟩

/-- C16, evaluated at a failing input: an item with one info pair is selected and then
deselected; `currentSelectedItemsChanged(NULL, NULL)` calls `setFileInfo()`, which empties the
label list and leaves `p_nrLabelPairs = 1`, so `p_labelList.count() == 2 * p_nrLabelPairs` no
longer holds, and the assertion fails when an item with one info pair is selected again. -/
theorem labelsMatchPairs_broken_by_deselecting :
    FileInfoGroupBox.labelsMatchPairs FileInfoGroupBox.construct = true ∧
    (FileInfoGroupBox.run FileInfoGroupBox.construct
      [FileInfoGroupBox.BoxOp.currentSelectedItemsChanged
        (some ("Info", [("Name", "a.yuv")])) none]).map FileInfoGroupBox.labelsMatchPairs
      = some true ∧
    (FileInfoGroupBox.run FileInfoGroupBox.construct
      [FileInfoGroupBox.BoxOp.currentSelectedItemsChanged
        (some ("Info", [("Name", "a.yuv")])) none,
       FileInfoGroupBox.BoxOp.currentSelectedItemsChanged none none]).map
        FileInfoGroupBox.labelsMatchPairs
      = some false ∧
    FileInfoGroupBox.run FileInfoGroupBox.construct
      [FileInfoGroupBox.BoxOp.currentSelectedItemsChanged
        (some ("Info", [("Name", "a.yuv")])) none,
       FileInfoGroupBox.BoxOp.currentSelectedItemsChanged none none,
       FileInfoGroupBox.BoxOp.currentSelectedItemsChanged
        (some ("Info", [("Name", "b.yuv")])) none] = none := by
  refine ⟨by decide, by decide, by decide, by decide⟩

end YUView
